import Mathlib

/-
Verification of the MACOL decentralized contextual multi-armed-bandit
association controller (repository cfoh/MACOL).

Two implementations of the algorithm are embedded here:
  * the class CLMAB          of test-macol.py        (namespace CLMAB), and
  * the class MACOLSolution  of toy-example/main.py  (namespace Toy).

Both classes carry per-agent dictionaries q_value / q_count with textually
identical update_reward, get_reward and get_threshold methods, so the
Q-store is embedded once (namespace MACOL) and used by both.  Agents (base
stations / sectors) are identified by their index in the station list;
context keys are the strings the source builds.  Real-valued quantities
(rewards, durations, simulation time) are modelled by the rationals.
The external environment (radio reachability, the candidate vehicle picked
by random.choice, the random.random() draw, and per-epoch interference)
is supplied to each epoch as an oracle, exactly at the points where the
source queries it.
-/

namespace MACOL

/-- Per-agent Q tables: `q_value[agent][context]` is the running mean reward
and `q_count[agent][context]` the sample count, as in both sources.  A
Python dict is modelled as an association list (insertion order, unique
keys); the outer per-agent dict, created up-front for every agent, as a
total function from agent index. -/
structure QStore where
  q_value : ℕ → List (String × ℚ)
  q_count : ℕ → List (String × ℕ)

/-- Both classes start every agent with empty q tables. -/
def emptyQ : QStore := ⟨fun _ => [], fun _ => []⟩

/-- Python dict lookup: `d[c]` when present, `none` otherwise. -/
def qlookup {β : Type} : List (String × β) → String → Option β
  | [], _ => none
  | (k, v) :: rest, c => if k = c then some v else qlookup rest c

/-- Python dict assignment `d[c] = v`: replace in place if the key exists,
append otherwise. -/
def setEntry {β : Type} : List (String × β) → String → β → List (String × β)
  | [], c, v => [(c, v)]
  | (k, w) :: rest, c, v =>
      if k = c then (k, v) :: rest else (k, w) :: setEntry rest c v

/-- `update_reward` (test-macol.py lines 327-338, toy-example lines 255-265):
if the context is absent, initialize value 0 and count 0; then
value = q_value*q_count + reward; q_count += 1; q_value = value/q_count. -/
def update_reward (st : QStore) (a : ℕ) (c : String) (r : ℚ) : QStore :=
  let v0 : ℚ := (qlookup (st.q_value a) c).getD 0
  let c0 : ℕ := (qlookup (st.q_count a) c).getD 0
  let value : ℚ := v0 * (c0 : ℚ) + r
  let c1 : ℕ := c0 + 1
  { q_value := fun a2 =>
      if a2 = a then setEntry (st.q_value a) c (value / (c1 : ℚ)) else st.q_value a2,
    q_count := fun a2 =>
      if a2 = a then setEntry (st.q_count a) c c1 else st.q_count a2 }

/-- `get_reward` (test-macol.py lines 340-345, toy-example lines 267-272):
the stored mean, or 0 if the context was never seen. -/
def get_reward (st : QStore) (a : ℕ) (c : String) : ℚ :=
  (qlookup (st.q_value a) c).getD 0

/-- `get_threshold` (test-macol.py lines 315-325, toy-example lines 245-253):
0 on an empty table, otherwise the average of the stored values across all
contexts. -/
def get_threshold (st : QStore) (a : ℕ) : ℚ :=
  let t := st.q_value a
  if t.length = 0 then 0 else (t.map Prod.snd).sum / (t.length : ℚ)

/-- A sequence of `update_reward` calls for one fixed (agent, context). -/
def applyRewards (st : QStore) (a : ℕ) (c : String) (rs : List ℚ) : QStore :=
  rs.foldl (fun s r => update_reward s a c r) st

end MACOL

namespace Toy

/-- BaseStation (toy-example/main.py lines 90-153), restricted to the
fields the association logic reads or writes; positions and drawing are
external.  `serving_duration`, `serving_inter_free` and `MAB_context` are
created dynamically in Python; they default to 0 / 0 / none here and are
never read before being written on a reachable path. -/
structure BaseStation where
  serving_vehicle : Option ℕ
  total_serving_duration : ℚ
  total_serving_count : ℕ
  serving_duration : ℚ
  serving_inter_free : ℚ
  MAB_context : Option String
  MACOL_backoff : ℚ × ℚ

/-- BaseStation.__init__ (lines 95-105). -/
def mkBaseStation : BaseStation :=
  { serving_vehicle := none, total_serving_duration := 0, total_serving_count := 0,
    serving_duration := 0, serving_inter_free := 0, MAB_context := none,
    MACOL_backoff := (0, 0) }

/-- associate_vehicle (lines 123-129): bind the vehicle and reset the
per-connection counters. -/
def associate_vehicle (bs : BaseStation) (v : ℕ) : BaseStation :=
  { bs with serving_vehicle := some v, serving_duration := 0, serving_inter_free := 0 }

/-- lost_vehicle (lines 131-137): fold the finished connection into the
totals and release the vehicle. -/
def lost_vehicle (bs : BaseStation) : BaseStation :=
  { bs with total_serving_duration := bs.total_serving_duration + bs.serving_duration,
            total_serving_count := bs.total_serving_count + 1,
            serving_vehicle := none }

/-- get_average_serving_duration (lines 139-142): unguarded division
total_serving_duration / total_serving_count. -/
def get_average_serving_duration (bs : BaseStation) : ℚ :=
  bs.total_serving_duration / (bs.total_serving_count : ℚ)

/-- backoff (lines 144-147): overwrite the timer unconditionally. -/
def backoff (bs : BaseStation) (start_time duration : ℚ) : BaseStation :=
  { bs with MACOL_backoff := (start_time, duration) }

/-- is_backoff (lines 149-153): true iff (check_time - start_time) < duration. -/
def is_backoff (bs : BaseStation) (check_time : ℚ) : Bool :=
  decide ((check_time - bs.MACOL_backoff.1) < bs.MACOL_backoff.2)

/-- The character contributed by one neighbour in get_current_context. -/
def servingChar (bs : BaseStation) : Char :=
  if bs.serving_vehicle.isSome then '1' else '0'

/-- The loop of get_current_context (lines 240-242): one character per
station of bs_list other than the agent itself (index i), in list order;
j is the index of the head of the remaining list. -/
def ctxBits (i : ℕ) : ℕ → List BaseStation → List Char
  | _, [] => []
  | j, bs :: rest =>
      (if j = i then [] else [servingChar bs]) ++ ctxBits i (j + 1) rest

/-- get_current_context (lines 235-243): the string
"[" + connection bits of all other stations + "]". -/
def get_current_context (i : ℕ) (bs_list : List BaseStation) : String :=
  String.mk ('[' :: ctxBits i 0 bs_list ++ [']'])

/-- The algorithm-level state of MACOLSolution (lines 205-233). -/
structure Solution where
  epsilon : ℚ
  exploration_rate : ℚ
  exploration_time : ℚ
  is_full_exploration : Bool
  q : MACOL.QStore

/-- MACOLSolution.__init__ with the settings of lines 210-220 generalized
over epsilon and the exploration time: exploration_rate starts at 1.0 with
full exploration on, and all q tables empty. -/
def mkSolutionWith (epsilon exploration_time : ℚ) : Solution :=
  { epsilon := epsilon, exploration_rate := 1, exploration_time := exploration_time,
    is_full_exploration := true, q := MACOL.emptyQ }

/-- MACOLSolution.__init__ exactly as written: epsilon = 0.05,
exploration_time = 8000. -/
def mkSolution : Solution := mkSolutionWith (1 / 20) 8000

/-- The exploration-or-exploitation block at the top of execute
(lines 281-285): a one-way switch guarded by sim_time > exploration_time. -/
def explorationUpdate (sol : Solution) (sim_time : ℚ) : Solution :=
  if sol.is_full_exploration then
    if sim_time > sol.exploration_time then
      { sol with is_full_exploration := false, exploration_rate := sol.epsilon }
    else sol
  else sol

/-- Repeated execute calls, restricted to their effect on the exploration
state (the block above is the only writer of these fields). -/
def explorationFold (sol : Solution) (ts : List ℚ) : Solution :=
  ts.foldl explorationUpdate sol

/-- Answers of the external world for one epoch, indexed by station:
`lost j` = station j can no longer reach its served vehicle (can_reach
failed); `candidate j` = the unclaimed reachable vehicle random.choice
picked, if any; `draw j` = the random.random() sample; `interFree j` =
the served vehicle of j sees exactly one transmission this frame. -/
structure Oracle where
  lost : ℕ → Bool
  candidate : ℕ → Option ℕ
  draw : ℕ → ℚ
  interFree : ℕ → Bool

/-- First loop of execute (lines 288-293): drop lost connections and
record which stations just lost one (in list order). -/
def dropPass (lost : ℕ → Bool) : ℕ → List BaseStation → List BaseStation × List ℕ
  | _, [] => ([], [])
  | j, bs :: rest =>
      let r := dropPass lost (j + 1) rest
      if bs.serving_vehicle.isSome then
        if lost j then (lost_vehicle bs :: r.1, j :: r.2) else (bs :: r.1, r.2)
      else (bs :: r.1, r.2)

/-- Second loop of execute (lines 296-298): for each station that just
lost a connection, the_reward = bs.serving_inter_free (the raw
interference-free duration), recorded under the stored MAB_context. -/
def rewardPass (stations : List BaseStation) (lostIdx : List ℕ)
    (q : MACOL.QStore) : MACOL.QStore :=
  lostIdx.foldl (fun q j =>
    match stations[j]? with
    | some bs => MACOL.update_reward q j (bs.MAB_context.getD "") bs.serving_inter_free
    | none => q) q

/-- Body of the association loop (lines 301-338) for the station at index
j of the current list: skip if serving or in backoff; otherwise, for the
picked candidate, decide by exploration draw or by the
reward-vs-threshold rule, then either associate (snapshotting the
context) or arm the backoff timer with the average serving duration. -/
def acqStep (sol : Solution) (o : Oracle) (sim_time : ℚ)
    (l : List BaseStation) (j : ℕ) : List BaseStation :=
  match l[j]? with
  | none => l
  | some bs =>
    if bs.serving_vehicle.isSome then l
    else if is_backoff bs sim_time then l
    else
      match o.candidate j with
      | none => l
      | some v =>
          let this_context := get_current_context j l
          let this_reward := MACOL.get_reward sol.q j this_context
          let this_threshold := MACOL.get_threshold sol.q j
          let to_serve : Bool :=
            if o.draw j < sol.exploration_rate then true
            else decide (this_reward = 0 ∨ this_reward > this_threshold)
          if to_serve then
            l.set j { associate_vehicle bs v with MAB_context := some this_context }
          else
            l.set j (backoff bs sim_time (get_average_serving_duration bs))

/-- The association loop over all stations, in list order; the context of
a later station sees the in-place updates made for earlier ones. -/
def acquisitionPass (sol : Solution) (o : Oracle) (sim_time : ℚ)
    (l : List BaseStation) : List BaseStation :=
  (List.range l.length).foldl (acqStep sol o sim_time) l

/-- The per-frame duration bookkeeping of the main loop (lines 403-407):
each serving station gains one tick of serving_duration, and one tick of
serving_inter_free when its vehicle sees exactly one transmission. -/
def accrue (interFree : Bool) (bs : BaseStation) : BaseStation :=
  if bs.serving_vehicle.isSome then
    { bs with serving_duration := bs.serving_duration + 1,
              serving_inter_free := bs.serving_inter_free + (if interFree then 1 else 0) }
  else bs

/-- The duration bookkeeping over the station list. -/
def accrualPass (interFree : ℕ → Bool) : ℕ → List BaseStation → List BaseStation
  | _, [] => []
  | j, bs :: rest => accrue (interFree j) bs :: accrualPass interFree (j + 1) rest

/-- One full simulation frame: the solution state plus all stations. -/
structure State where
  sol : Solution
  stations : List BaseStation

/-- One frame of the main loop (lines 384-407) restricted to the MACOL
algorithm: execute (exploration switch, drop, reward, association) and
then the duration bookkeeping. -/
def epoch (o : Oracle) (sim_time : ℚ) (s : State) : State :=
  let sol1 := explorationUpdate s.sol sim_time
  let dropped := dropPass o.lost 0 s.stations
  let q1 := rewardPass dropped.1 dropped.2 sol1.q
  let sol2 := { sol1 with q := q1 }
  let stations2 := acquisitionPass sol2 o sim_time dropped.1
  let stations3 := accrualPass o.interFree 0 stations2
  { sol := sol2, stations := stations3 }

/-- The simulation start: fresh solution, n fresh stations. -/
def initState (n : ℕ) : State :=
  { sol := mkSolution, stations := List.replicate n mkBaseStation }

/-- States reachable by the main loop: frames run at non-decreasing sim
times (sim_tick = 1, 2, 3, ... in the source), any environment. -/
inductive Reachable : State → ℚ → Prop where
  | init : ∀ n, Reachable (initState n) 0
  | step : ∀ s t t2 o, Reachable s t → t ≤ t2 → Reachable (epoch o t2 s) t2

end Toy

namespace CLMAB

/-- MySector (test-macol.py lines 74-130), restricted to the fields the
association logic reads or writes; transceivers, locations and the
displacement diagnostics are external.  `neighbour_list` holds the indices
of the neighbouring sectors (filled once at scenario creation). -/
structure MySector where
  serving_node : Option ℕ
  total_duration : ℚ
  total_interference_free : ℚ
  serving_duration : ℚ
  serving_interference_free : ℚ
  period_conn_count : ℕ
  neighbour_list : List ℕ
  MAB_context : Option String
  MAB_backoff : ℚ × ℚ

/-- MySector.__init__ (lines 79-107). -/
def mkSector (nbrs : List ℕ) : MySector :=
  { serving_node := none, total_duration := 0, total_interference_free := 0,
    serving_duration := 0, serving_interference_free := 0, period_conn_count := 0,
    neighbour_list := nbrs, MAB_context := none, MAB_backoff := (0, 0) }

/-- associate_vehicle (lines 109-115): bind the node, reset the
per-connection counters, count the connection for the period. -/
def associate_vehicle (s : MySector) (v : ℕ) : MySector :=
  { s with serving_node := some v, serving_duration := 0,
           serving_interference_free := 0,
           period_conn_count := s.period_conn_count + 1 }

/-- lost_vehicle (lines 117-123): release the node (the displacement
computation is diagnostic only). -/
def lost_vehicle (s : MySector) : MySector :=
  { s with serving_node := none }

/-- backoff (lines 125-126): overwrite the timer unconditionally. -/
def backoff (s : MySector) (start_time duration : ℚ) : MySector :=
  { s with MAB_backoff := (start_time, duration) }

/-- is_backoff (lines 128-130): true iff (check_time - start_time) < duration. -/
def is_backoff (s : MySector) (check_time : ℚ) : Bool :=
  decide ((check_time - s.MAB_backoff.1) < s.MAB_backoff.2)

/-- get_current_context (lines 307-313): one bit per entry of the sector's
neighbour_list, in its fixed order, wrapped in brackets.  A neighbour
index outside the sector list never occurs in the scenario; it reads as
not serving here. -/
def get_current_context (l : List MySector) (s : MySector) : String :=
  String.mk ('[' :: s.neighbour_list.map
      (fun k => if ((l[k]?).map (fun nb => nb.serving_node.isSome)).getD false
                then '1' else '0')
    ++ [']'])

/-- The algorithm-level state of CLMAB (lines 290-305). -/
structure AlgoState where
  exploration_rate : ℚ
  exploration_time : ℚ
  is_exploration_over : Bool
  q : MACOL.QStore

/-- CLMAB.__init__ (lines 292-305): exploration_rate 1.0, the requested
exploration time, the switch-over flag off, empty q tables. -/
def mkAlgoState (exploration_time : ℚ) : AlgoState :=
  { exploration_rate := 1, exploration_time := exploration_time,
    is_exploration_over := false, q := MACOL.emptyQ }

/-- The exploration-or-exploitation block of execute (lines 351-366), as
its net state effect (the guarded inner block only prints): the rate is
recomputed from sim_time on every call; epsilon is the global
gvar.algo setting. -/
def explorationUpdate (epsilon : ℚ) (st : AlgoState) (sim_time : ℚ) : AlgoState :=
  if sim_time < st.exploration_time then { st with exploration_rate := 1 }
  else { st with is_exploration_over := true, exploration_rate := epsilon }

/-- The reward block of execute (lines 390-395) for one sector that just
lost its connection: skip entirely when the connection had zero duration,
otherwise record serving_interference_free / serving_duration under the
context snapshotted at association. -/
def lostReward (q : MACOL.QStore) (j : ℕ) (s : MySector) : MACOL.QStore :=
  if s.serving_duration = 0 then q
  else MACOL.update_reward q j (s.MAB_context.getD "")
         (s.serving_interference_free / s.serving_duration)

/-- Answers of the pymosim world for one epoch, indexed by sector:
`lost j` = the served node of sector j no longer answers its beacon;
`candidate j` = the unassociated reachable vehicle random.choice picked,
if any; `draw j` = the random.random() sample; `interference j` = the
served node of sector j currently has interference. -/
structure Oracle where
  lost : ℕ → Bool
  candidate : ℕ → Option ℕ
  draw : ℕ → ℚ
  interference : ℕ → Bool

/-- The per-event duration bookkeeping of MyScenario.do_mobility
(lines 744-750), which runs before execute: each serving sector gains dt
of duration, and dt of interference-free duration when its node has no
interference. -/
def accrue (dt : ℚ) (interference : Bool) (s : MySector) : MySector :=
  if s.serving_node.isSome then
    { s with total_duration := s.total_duration + dt,
             serving_duration := s.serving_duration + dt,
             total_interference_free :=
               s.total_interference_free + (if interference then 0 else dt),
             serving_interference_free :=
               s.serving_interference_free + (if interference then 0 else dt) }
  else s

/-- The duration bookkeeping over the sector list. -/
def accrualPass (dt : ℚ) (intf : ℕ → Bool) : ℕ → List MySector → List MySector
  | _, [] => []
  | j, s :: rest => accrue dt (intf j) s :: accrualPass dt intf (j + 1) rest

/-- First loop of execute (lines 381-387): drop lost connections and
record which sectors just lost one (in list order). -/
def dropPass (lost : ℕ → Bool) : ℕ → List MySector → List MySector × List ℕ
  | _, [] => ([], [])
  | j, s :: rest =>
      let r := dropPass lost (j + 1) rest
      if s.serving_node.isSome then
        if lost j then (lost_vehicle s :: r.1, j :: r.2) else (s :: r.1, r.2)
      else (s :: r.1, r.2)

/-- Second loop of execute (lines 389-395): the reward updates for the
sectors that just lost a connection. -/
def rewardPass (sectors : List MySector) (lostIdx : List ℕ)
    (q : MACOL.QStore) : MACOL.QStore :=
  lostIdx.foldl (fun q j =>
    match sectors[j]? with
    | some s => lostReward q j s
    | none => q) q

/-- Body of the association loop (lines 406-455) for the sector at index
j of the current list: skip if serving or in backoff; otherwise, for the
picked candidate, decide by exploration draw or by the
reward-vs-threshold rule, then either associate (snapshotting the
context) or arm the backoff timer with this_threshold as its duration. -/
def acqStep (st : AlgoState) (o : Oracle) (sim_time : ℚ)
    (l : List MySector) (j : ℕ) : List MySector :=
  match l[j]? with
  | none => l
  | some s =>
    if s.serving_node.isSome then l
    else if is_backoff s sim_time then l
    else
      match o.candidate j with
      | none => l
      | some v =>
          let this_context := get_current_context l s
          let this_reward := MACOL.get_reward st.q j this_context
          let this_threshold := MACOL.get_threshold st.q j
          let to_serve : Bool :=
            if o.draw j < st.exploration_rate then true
            else decide (this_reward = 0 ∨ this_reward > this_threshold)
          if to_serve then
            l.set j { associate_vehicle s v with MAB_context := some this_context }
          else
            l.set j (backoff s sim_time this_threshold)

/-- The association loop over all sectors, in list order. -/
def acquisitionPass (st : AlgoState) (o : Oracle) (sim_time : ℚ)
    (l : List MySector) : List MySector :=
  (List.range l.length).foldl (acqStep st o sim_time) l

/-- One simulation event: the algorithm state plus all sectors. -/
structure State where
  st : AlgoState
  sectors : List MySector

/-- One mobility event of MyScenario.do_mobility (lines 730-753)
restricted to the CLMAB algorithm: duration bookkeeping for the elapsed
dt, then execute (exploration block, drop, reward, association). -/
def epoch (epsilon : ℚ) (o : Oracle) (dt sim_time : ℚ) (s : State) : State :=
  let sectors0 := accrualPass dt o.interference 0 s.sectors
  let st1 := explorationUpdate epsilon s.st sim_time
  let dropped := dropPass o.lost 0 sectors0
  let q1 := rewardPass dropped.1 dropped.2 st1.q
  let st2 := { st1 with q := q1 }
  let sectors2 := acquisitionPass st2 o sim_time dropped.1
  { st := st2, sectors := sectors2 }

/-- The scenario start: fresh algorithm state and one fresh sector per
neighbour list. -/
def initState (exploration_time : ℚ) (nbrs : List (List ℕ)) : State :=
  { st := mkAlgoState exploration_time, sectors := nbrs.map mkSector }

/-- States reachable by the event loop: events run at non-decreasing sim
times (pymosim event times are non-decreasing and dt = sim_time -
last_sim_time), any environment. -/
inductive Reachable (epsilon exploration_time : ℚ) : State → ℚ → Prop where
  | init : ∀ nbrs, Reachable epsilon exploration_time (initState exploration_time nbrs) 0
  | step : ∀ s t t2 o, Reachable epsilon exploration_time s t → t ≤ t2 →
      Reachable epsilon exploration_time (epoch epsilon o (t2 - t) t2 s) t2

end CLMAB

/-
Concrete fixtures used by the witnesses and counterexamples below.
-/

/-- A toy station currently serving vehicle 7, with one earlier completed
connection (total duration 20), whose current connection so far lasted 5
ticks of which 3 were interference-free, with context "[]" snapshotted at
association (as the only station its own context is empty). -/
def exToyServing : Toy.BaseStation :=
  { serving_vehicle := some 7, total_serving_duration := 20, total_serving_count := 1,
    serving_duration := 5, serving_inter_free := 3, MAB_context := some "[]",
    MACOL_backoff := (0, 0) }

/-- The same station with a zero-length connection. -/
def exToyServingZero : Toy.BaseStation :=
  { exToyServing with serving_duration := 0, serving_inter_free := 0 }

/-- An environment in which every served vehicle is newly unreachable and
no candidate is available. -/
def exOracleLost : Toy.Oracle :=
  { lost := fun _ => true, candidate := fun _ => none,
    draw := fun _ => 0, interFree := fun _ => false }

def exToyStateServing : Toy.State := { sol := Toy.mkSolution, stations := [exToyServing] }

def exToyStateZero : Toy.State := { sol := Toy.mkSolution, stations := [exToyServingZero] }

/-- Q tables holding contexts "[1]" (mean 1/4) and "[0]" (mean 3/4) for
every agent; the threshold of every agent is then 1/2. -/
def exQ : MACOL.QStore :=
  ⟨fun _ => [("[1]", 1/4), ("[0]", 3/4)], fun _ => [("[1]", 1), ("[0]", 1)]⟩

/-- A toy solution past the exploration window (rate 1/20) with exQ. -/
def exToySolution : Toy.Solution :=
  { epsilon := 1/20, exploration_rate := 1/20, exploration_time := 8000,
    is_full_exploration := false, q := exQ }

/-- An idle toy station with 2 completed connections of total duration 14
(average 7) and no active backoff. -/
def exToyIdle : Toy.BaseStation :=
  { serving_vehicle := none, total_serving_duration := 14, total_serving_count := 2,
    serving_duration := 3, serving_inter_free := 1, MAB_context := none,
    MACOL_backoff := (0, 0) }

/-- A toy station list: the idle station 0 next to a station serving
vehicle 7, so the context of station 0 is "[1]". -/
def exToyPair : List Toy.BaseStation := [exToyIdle, exToyServing]

/-- An environment offering vehicle 5 to every station with an
exploitation draw (1 is never below the rate). -/
def exOracleOffer : Toy.Oracle :=
  { lost := fun _ => false, candidate := fun _ => some 5,
    draw := fun _ => 1, interFree := fun _ => false }

/-- An idle CLMAB sector with one neighbour (index 1), totals giving
average serving duration 7 over its 2 connections. -/
def exSectorIdle : CLMAB.MySector :=
  { serving_node := none, total_duration := 14, total_interference_free := 6,
    serving_duration := 3, serving_interference_free := 1, period_conn_count := 2,
    neighbour_list := [1], MAB_context := none, MAB_backoff := (0, 0) }

/-- A CLMAB sector serving node 9 whose current connection lasted 5 s of
which 3 s interference-free, with context "[0]" snapshotted. -/
def exSectorServing : CLMAB.MySector :=
  { serving_node := some 9, total_duration := 20, total_interference_free := 10,
    serving_duration := 5, serving_interference_free := 3, period_conn_count := 1,
    neighbour_list := [0], MAB_context := some "[0]", MAB_backoff := (0, 0) }

/-- The same sector with a zero-length connection. -/
def exSectorServingZero : CLMAB.MySector :=
  { exSectorServing with serving_duration := 0, serving_interference_free := 0 }

/-- A CLMAB algorithm state past the exploration window with exQ. -/
def exClmabAlgo : CLMAB.AlgoState :=
  { exploration_rate := 1/20, exploration_time := 120, is_exploration_over := true,
    q := exQ }

/-- A CLMAB sector list: the idle sector 0 whose single neighbour, sector
1, is serving, so the context of sector 0 is "[1]". -/
def exSectorPair : List CLMAB.MySector := [exSectorIdle, exSectorServing]

/-- An environment offering node 5 to every sector with an exploitation
draw (1 is never below the rate). -/
def exClmabOracle : CLMAB.Oracle :=
  { lost := fun _ => false, candidate := fun _ => some 5,
    draw := fun _ => 1, interference := fun _ => false }

/-- Mutual-exclusion invariant (C9): every serving agent's backoff timer
is inactive at the given time. -/
def Toy.ServeNotBackoff (stations : List Toy.BaseStation) (t : ℚ) : Prop :=
  ∀ bs ∈ stations, bs.serving_vehicle.isSome → Toy.is_backoff bs t = false

/-- Mutual-exclusion invariant (C9) for CLMAB. -/
def CLMAB.ServeNotBackoff (sectors : List CLMAB.MySector) (t : ℚ) : Prop :=
  ∀ s ∈ sectors, s.serving_node.isSome → CLMAB.is_backoff s t = false

/-- Safety invariant (C10): an agent whose q table is nonempty has
completed at least one connection, so its average serving duration has a
nonzero denominator. -/
def Toy.QCountInv (q : MACOL.QStore) (stations : List Toy.BaseStation) : Prop :=
  ∀ j bs, stations[j]? = some bs → q.q_value j ≠ [] → 1 ≤ bs.total_serving_count

-- ## Lemmas and claim theorems


namespace MACOL

theorem qlookup_setEntry_self {β : Type} (t : List (String × β)) (c : String) (v : β) :
    qlookup (setEntry t c v) c = some v := by
  induction t with
  | nil => simp [setEntry, qlookup]
  | cons hd tl ih =>
      obtain ⟨k, w⟩ := hd
      by_cases hk : k = c
      · simp [setEntry, qlookup, hk]
      · simp [setEntry, qlookup, hk, ih]

theorem qlookup_setEntry_ne {β : Type} (t : List (String × β)) (c c2 : String) (v : β)
    (h : c2 ≠ c) : qlookup (setEntry t c v) c2 = qlookup t c2 := by
  induction t with
  | nil =>
      simp only [setEntry, qlookup]
      rw [if_neg (fun h2 => h h2.symm)]
  | cons hd tl ih =>
      obtain ⟨k, w⟩ := hd
      by_cases hk : k = c
      · subst hk
        simp only [setEntry, if_pos rfl, qlookup]
        have : ¬ k = c2 := fun h2 => h (h2.symm)
        simp [this]
      · simp [setEntry, hk, qlookup, ih]

theorem update_reward_value_self (st : QStore) (a : ℕ) (c : String) (r : ℚ) :
    qlookup ((update_reward st a c r).q_value a) c =
      some ((((qlookup (st.q_value a) c).getD 0) * (((qlookup (st.q_count a) c).getD 0 : ℕ) : ℚ) + r)
              / ((((qlookup (st.q_count a) c).getD 0 : ℕ) : ℚ) + 1)) := by
  simp only [update_reward, eq_self_iff_true, if_true]
  rw [qlookup_setEntry_self]
  push_cast
  ring_nf

theorem update_reward_count_self (st : QStore) (a : ℕ) (c : String) (r : ℚ) :
    qlookup ((update_reward st a c r).q_count a) c =
      some ((qlookup (st.q_count a) c).getD 0 + 1) := by
  simp only [update_reward, eq_self_iff_true, if_true]
  rw [qlookup_setEntry_self]

theorem update_reward_value_frame (st : QStore) (a : ℕ) (c : String) (r : ℚ)
    (a2 : ℕ) (c2 : String) (h : a2 ≠ a ∨ c2 ≠ c) :
    qlookup ((update_reward st a c r).q_value a2) c2 = qlookup (st.q_value a2) c2 := by
  by_cases ha : a2 = a
  · subst ha
    have hc : c2 ≠ c := h.resolve_left (fun h2 => h2 rfl)
    simp only [update_reward, eq_self_iff_true, if_true]
    exact qlookup_setEntry_ne _ _ _ _ hc
  · simp [update_reward, ha]

theorem update_reward_count_frame (st : QStore) (a : ℕ) (c : String) (r : ℚ)
    (a2 : ℕ) (c2 : String) (h : a2 ≠ a ∨ c2 ≠ c) :
    qlookup ((update_reward st a c r).q_count a2) c2 = qlookup (st.q_count a2) c2 := by
  by_cases ha : a2 = a
  · subst ha
    have hc : c2 ≠ c := h.resolve_left (fun h2 => h2 rfl)
    simp only [update_reward, eq_self_iff_true, if_true]
    exact qlookup_setEntry_ne _ _ _ _ hc
  · simp [update_reward, ha]


theorem applyRewards_acc (rs : List ℚ) :
    ∀ (st : QStore) (a : ℕ) (c : String) (s : ℚ) (k : ℕ), 1 ≤ k →
    qlookup (st.q_value a) c = some (s / (k : ℚ)) →
    qlookup (st.q_count a) c = some k →
    qlookup ((applyRewards st a c rs).q_value a) c
        = some ((s + rs.sum) / ((k : ℚ) + (rs.length : ℚ))) ∧
    qlookup ((applyRewards st a c rs).q_count a) c = some (k + rs.length) := by
  induction rs with
  | nil =>
      intro st a c s k hk hv hc
      constructor
      · rw [show applyRewards st a c [] = st from rfl, hv]
        norm_num
      · rw [show applyRewards st a c [] = st from rfl, hc]
        norm_num
  | cons r rs ih =>
      intro st a c s k hk hv hc
      have hknz : ((k : ℕ) : ℚ) ≠ 0 := by
        exact_mod_cast Nat.cast_ne_zero.mpr (by omega)
      have hv2 : qlookup ((update_reward st a c r).q_value a) c
          = some ((s + r) / (((k + 1 : ℕ)) : ℚ)) := by
        rw [update_reward_value_self, hv, hc]
        simp only [Option.getD_some]
        congr 1
        rw [div_mul_cancel₀ _ hknz]
        push_cast
        ring
      have hc2 : qlookup ((update_reward st a c r).q_count a) c = some (k + 1) := by
        rw [update_reward_count_self, hc]
        simp
      have hstep : applyRewards st a c (r :: rs)
          = applyRewards (update_reward st a c r) a c rs := rfl
      obtain ⟨pv, pc⟩ := ih (update_reward st a c r) a c (s + r) (k + 1) (by omega) hv2 hc2
      constructor
      · rw [hstep, pv]
        congr 1
        simp only [List.sum_cons, List.length_cons]
        push_cast
        ring
      · rw [hstep, pc]
        congr 1
        simp only [List.length_cons]
        omega

theorem qlookup_keys_eq (t : List (String × ℚ)) (h : (t.map Prod.fst).Nodup) :
    (t.map Prod.fst).map (fun c => (qlookup t c).getD 0) = t.map Prod.snd := by
  induction t with
  | nil => rfl
  | cons hd tl ih =>
      obtain ⟨k, v⟩ := hd
      simp only [List.map_cons] at h ⊢
      have hk : k ∉ tl.map Prod.fst := (List.nodup_cons.mp h).1
      have hnd : (tl.map Prod.fst).Nodup := (List.nodup_cons.mp h).2
      congr 1
      · simp [qlookup]
      · rw [← ih hnd]
        apply List.map_congr_left
        intro c hcmem
        have hne : ¬ k = c := fun he => hk (he ▸ hcmem)
        simp [qlookup, hne]

end MACOL

/-- C5: for every agent a and context c whose Q-store entry was never
written, get_reward returns exactly 0 (and is total); and if update_reward
is then called n ≥ 1 times for (a,c) with rewards r1..rn, get_reward
returns exactly their arithmetic mean and the stored count equals n. -/
theorem macol_C5 (st : MACOL.QStore) (a : ℕ) (c : String) (rs : List ℚ)
    (hv : MACOL.qlookup (st.q_value a) c = none)
    (hc : MACOL.qlookup (st.q_count a) c = none) :
    MACOL.get_reward st a c = 0 ∧
    (rs ≠ [] →
      MACOL.get_reward (MACOL.applyRewards st a c rs) a c
          = rs.sum / (rs.length : ℚ) ∧
      MACOL.qlookup ((MACOL.applyRewards st a c rs).q_count a) c
          = some rs.length) := by
  constructor
  · rw [MACOL.get_reward, hv]
    rfl
  · intro hrs
    match rs with
    | [] => exact absurd rfl hrs
    | r :: rs =>
        have hv2 : MACOL.qlookup ((MACOL.update_reward st a c r).q_value a) c
            = some (r / ((1 : ℕ) : ℚ)) := by
          rw [MACOL.update_reward_value_self, hv, hc]
          norm_num
        have hc2 : MACOL.qlookup ((MACOL.update_reward st a c r).q_count a) c
            = some 1 := by
          rw [MACOL.update_reward_count_self, hc]
          rfl
        have hstep : MACOL.applyRewards st a c (r :: rs)
            = MACOL.applyRewards (MACOL.update_reward st a c r) a c rs := rfl
        obtain ⟨pv, pc⟩ := MACOL.applyRewards_acc rs (MACOL.update_reward st a c r)
          a c r 1 (by omega) hv2 hc2
        constructor
        · rw [MACOL.get_reward, hstep, pv]
          simp only [Option.getD_some, List.sum_cons, List.length_cons]
          congr 1
          push_cast
          ring
        · rw [hstep, pc]
          congr 1
          simp only [List.length_cons]
          omega

/-- Witness for C5 at a concrete input: fresh store, two updates with
rewards 1/2 and 1 give mean 3/4 and count 2; before any update the
reward reads 0. -/
theorem macol_C5_witness :
    MACOL.get_reward MACOL.emptyQ 0 "[01]" = 0 ∧
    MACOL.get_reward (MACOL.applyRewards MACOL.emptyQ 0 "[01]" [1/2, 1]) 0 "[01]"
        = ([(1 : ℚ)/2, 1].sum) / (([(1 : ℚ)/2, 1].length : ℚ)) ∧
    MACOL.qlookup ((MACOL.applyRewards MACOL.emptyQ 0 "[01]" [1/2, 1]).q_count 0) "[01]"
        = some 2 :=
  ⟨(macol_C5 MACOL.emptyQ 0 "[01]" [1/2, 1] rfl rfl).1,
   ((macol_C5 MACOL.emptyQ 0 "[01]" [1/2, 1] rfl rfl).2 (by simp)).1,
   ((macol_C5 MACOL.emptyQ 0 "[01]" [1/2, 1] rfl rfl).2 (by simp)).2⟩

/-- C6: get_threshold(a) is 0 when a's Q-store holds no context, and
otherwise is the arithmetic mean of the current get_reward(a,c) values
over the contexts c in a's Q-store (whose keys are unique, as in a
Python dict). -/
theorem macol_C6 (st : MACOL.QStore) (a : ℕ) :
    (st.q_value a = [] → MACOL.get_threshold st a = 0) ∧
    (((st.q_value a).map Prod.fst).Nodup →
      MACOL.get_threshold st a
        = (((st.q_value a).map Prod.fst).map (fun c => MACOL.get_reward st a c)).sum
            / ((((st.q_value a).map Prod.fst).length : ℕ) : ℚ)
      ∨ st.q_value a = []) := by
  constructor
  · intro h
    rw [MACOL.get_threshold, h]
    rfl
  · intro hnd
    by_cases hemp : st.q_value a = []
    · exact Or.inr hemp
    · left
      rw [MACOL.get_threshold]
      have hlen : (st.q_value a).length ≠ 0 := by
        simpa [List.length_eq_zero] using hemp
      rw [if_neg hlen]
      have hmap : ((st.q_value a).map Prod.fst).map (fun c => MACOL.get_reward st a c)
          = (st.q_value a).map Prod.snd := by
        rw [show (fun c => MACOL.get_reward st a c)
              = (fun c => (MACOL.qlookup (st.q_value a) c).getD 0) from rfl]
        exact MACOL.qlookup_keys_eq (st.q_value a) hnd
      rw [hmap, List.length_map]

/-- Witness for C6 at a concrete input: a store with two contexts of mean
rewards 1/4 and 3/4 has threshold (1/4 + 3/4)/2, and an empty store has
threshold 0. -/
theorem macol_C6_witness :
    MACOL.get_threshold MACOL.emptyQ 0 = 0 ∧
    (MACOL.get_threshold ⟨fun _ => [("[0]", 1/4), ("[1]", 3/4)], fun _ => []⟩ 0
        = (([("[0]", (1 : ℚ)/4), ("[1]", 3/4)].map Prod.fst).map
              (fun c => MACOL.get_reward ⟨fun _ => [("[0]", 1/4), ("[1]", 3/4)], fun _ => []⟩ 0 c)).sum
            / ((([("[0]", (1 : ℚ)/4), ("[1]", 3/4)].map Prod.fst).length : ℕ) : ℚ)
      ∨ ([("[0]", (1 : ℚ)/4), ("[1]", 3/4)] : List (String × ℚ)) = []) :=
  ⟨(macol_C6 MACOL.emptyQ 0).1 rfl,
   (macol_C6 ⟨fun _ => [("[0]", 1/4), ("[1]", 3/4)], fun _ => []⟩ 0).2 (by simp)⟩

theorem Toy.explorationUpdate_frozen (sol : Toy.Solution) (t : ℚ)
    (h : sol.is_full_exploration = false) : Toy.explorationUpdate sol t = sol := by
  simp [Toy.explorationUpdate, h]

theorem Toy.explorationFold_frozen (ts : List ℚ) :
    ∀ sol : Toy.Solution, sol.is_full_exploration = false →
      Toy.explorationFold sol ts = sol := by
  induction ts with
  | nil => intro sol h; rfl
  | cons t ts ih =>
      intro sol h
      have hstep : Toy.explorationFold sol (t :: ts)
          = Toy.explorationFold (Toy.explorationUpdate sol t) ts := rfl
      rw [hstep, Toy.explorationUpdate_frozen sol t h]
      exact ih sol h

theorem Toy.explorationFold_full (ts : List ℚ) :
    ∀ sol : Toy.Solution, sol.is_full_exploration = true →
      Toy.explorationFold sol ts =
        (if ts.any (fun t => decide (sol.exploration_time < t))
         then { sol with is_full_exploration := false, exploration_rate := sol.epsilon }
         else sol) := by
  induction ts with
  | nil => intro sol h; rfl
  | cons t ts ih =>
      intro sol h
      have hstep : Toy.explorationFold sol (t :: ts)
          = Toy.explorationFold (Toy.explorationUpdate sol t) ts := rfl
      by_cases ht : sol.exploration_time < t
      · have hupd : Toy.explorationUpdate sol t
            = { sol with is_full_exploration := false, exploration_rate := sol.epsilon } := by
          simp [Toy.explorationUpdate, h, ht]
        rw [hstep, hupd, Toy.explorationFold_frozen ts _ rfl]
        simp [List.any_cons, ht]
      · have hupd : Toy.explorationUpdate sol t = sol := by
          simp [Toy.explorationUpdate, h, ht]
        rw [hstep, hupd, ih sol h]
        simp [List.any_cons, ht]

/-- C3 (amended): for CLMAB the exploration rate used at call time t is
exactly 1.0 when t < exploration_time and exactly epsilon when
t >= exploration_time, including the boundary.  The toy implementation
instead uses the strict test sim_time > exploration_time on a one-way
switch: after any call sequence ts from the initial solution the rate is
epsilon exactly when some call had sim_time strictly past the window, so
at the boundary t = exploration_time the rate is still 1.0. -/
theorem macol_C3 (epsilon T t : ℚ) (st : CLMAB.AlgoState) (ts : List ℚ) :
    ((CLMAB.explorationUpdate epsilon st t).exploration_rate
        = if t < st.exploration_time then 1 else epsilon) ∧
    ((Toy.explorationFold (Toy.mkSolutionWith epsilon T) ts).exploration_rate
        = if ts.any (fun t2 => decide (T < t2)) then epsilon else 1) := by
  constructor
  · by_cases h : t < st.exploration_time
    · simp [CLMAB.explorationUpdate, h]
    · simp [CLMAB.explorationUpdate, h]
  · rw [Toy.explorationFold_full ts (Toy.mkSolutionWith epsilon T) rfl]
    by_cases h : ts.any (fun t2 => decide (T < t2))
    · simp only [Toy.mkSolutionWith] at h ⊢
      rw [if_pos h, if_pos h]
    · simp only [Toy.mkSolutionWith] at h ⊢
      rw [if_neg h, if_neg h]

/-- C3 counterexample: the claim says the rate is exactly epsilon at the
boundary t = explore_first_duration.  In the toy implementation
(exploration_time 8000, epsilon 0.05) a call at sim_time = 8000 leaves
the rate at 1.0, which is not 1/20. -/
theorem macol_C3_counterexample :
    (Toy.explorationUpdate Toy.mkSolution 8000).exploration_rate = 1 ∧
    Toy.mkSolution.epsilon = 1 / 20 ∧
    Toy.mkSolution.exploration_time = 8000 ∧
    ((1 : ℚ) ≠ 1 / 20) := by
  refine ⟨?_, rfl, rfl, by norm_num⟩
  simp [Toy.explorationUpdate, Toy.mkSolution, Toy.mkSolutionWith]

/-- C4 (amended): the one-way-transition property holds for the toy
implementation: once a call past the window has happened the switch is
off and every further call, at any (even smaller) sim_time, leaves the
rate at epsilon.  For CLMAB only the is_exploration_over flag is one-way;
the rate itself is recomputed from sim_time on every call and reverts to
1.0 whenever a later call supplies sim_time < exploration_time. -/
theorem macol_C4 (sol : Toy.Solution) (t : ℚ) (ts : List ℚ)
    (hflag : sol.is_full_exploration = true) (ht : sol.exploration_time < t) :
    ((Toy.explorationFold (Toy.explorationUpdate sol t) ts).exploration_rate
        = sol.epsilon ∧
     (Toy.explorationFold (Toy.explorationUpdate sol t) ts).is_full_exploration
        = false) ∧
    (∀ (epsilon : ℚ) (st : CLMAB.AlgoState) (t2 : ℚ),
      (st.is_exploration_over = true →
        (CLMAB.explorationUpdate epsilon st t2).is_exploration_over = true) ∧
      (t2 < st.exploration_time →
        (CLMAB.explorationUpdate epsilon st t2).exploration_rate = 1)) := by
  constructor
  · have hupd : Toy.explorationUpdate sol t
        = { sol with is_full_exploration := false, exploration_rate := sol.epsilon } := by
      simp [Toy.explorationUpdate, hflag, ht]
    rw [hupd, Toy.explorationFold_frozen ts _ rfl]
    exact ⟨rfl, rfl⟩
  · intro epsilon st t2
    constructor
    · intro hover
      by_cases h : t2 < st.exploration_time
      · simp [CLMAB.explorationUpdate, h, hover]
      · simp [CLMAB.explorationUpdate, h]
    · intro h
      simp [CLMAB.explorationUpdate, h]

/-- Witness for C4 at a concrete input: the toy solution switched at
t = 8001 keeps rate 1/20 through later calls at times 5 and 9000; and
the CLMAB flag stays on at t = 99 while its rate formula applies. -/
theorem macol_C4_witness :
    ((Toy.explorationFold (Toy.explorationUpdate Toy.mkSolution 8001) [5, 9000]).exploration_rate
        = Toy.mkSolution.epsilon ∧
     (Toy.explorationFold (Toy.explorationUpdate Toy.mkSolution 8001) [5, 9000]).is_full_exploration
        = false) ∧
    (∀ (epsilon : ℚ) (st : CLMAB.AlgoState) (t2 : ℚ),
      (st.is_exploration_over = true →
        (CLMAB.explorationUpdate epsilon st t2).is_exploration_over = true) ∧
      (t2 < st.exploration_time →
        (CLMAB.explorationUpdate epsilon st t2).exploration_rate = 1)) :=
  macol_C4 Toy.mkSolution 8001 [5, 9000] rfl (by norm_num [Toy.mkSolution, Toy.mkSolutionWith])

/-- C4 counterexample: the claim says the rate remains epsilon after an
evaluation past the window even for a later smaller sim_time.  For CLMAB
with exploration_time 100 and epsilon 1/20, a call at t = 100 sets the
rate to 1/20 and marks exploration over, but a following call at t = 99
sets the rate back to 1.0. -/
theorem macol_C4_counterexample :
    (CLMAB.explorationUpdate (1/20) (CLMAB.mkAlgoState 100) 100).is_exploration_over = true ∧
    (CLMAB.explorationUpdate (1/20) (CLMAB.mkAlgoState 100) 100).exploration_rate = 1 / 20 ∧
    (CLMAB.explorationUpdate (1/20)
        (CLMAB.explorationUpdate (1/20) (CLMAB.mkAlgoState 100) 100) 99).exploration_rate = 1 ∧
    ((1 : ℚ) ≠ 1 / 20) := by
  refine ⟨?_, ?_, ?_, by norm_num⟩
  · simp [CLMAB.explorationUpdate, CLMAB.mkAlgoState]
  · simp [CLMAB.explorationUpdate, CLMAB.mkAlgoState]
  · norm_num [CLMAB.explorationUpdate, CLMAB.mkAlgoState]

/-- C2 (amended): in CLMAB a serving sector that loses its client causes,
when the connection's total duration is nonzero, exactly one update of
its own (sector, snapshotted context) Q entry — the count rises by one,
the stored mean absorbs reward = interference_free / total duration, and
every other entry of every agent is untouched — and, when the total
duration is zero, no Q-store change at all.  The toy implementation
instead always updates, using the raw interference-free duration
(serving_inter_free, not a ratio) as the reward, with no zero-duration
guard. -/
theorem macol_C2 :
    (∀ (q : MACOL.QStore) (j : ℕ) (s : CLMAB.MySector),
        s.serving_duration = 0 → CLMAB.lostReward q j s = q) ∧
    (∀ (q : MACOL.QStore) (j : ℕ) (s : CLMAB.MySector) (ctx : String),
        s.serving_duration ≠ 0 → s.MAB_context = some ctx →
        MACOL.qlookup ((CLMAB.lostReward q j s).q_count j) ctx
            = some ((MACOL.qlookup (q.q_count j) ctx).getD 0 + 1) ∧
        MACOL.get_reward (CLMAB.lostReward q j s) j ctx
            = (((MACOL.qlookup (q.q_value j) ctx).getD 0)
                  * ((((MACOL.qlookup (q.q_count j) ctx).getD 0 : ℕ)) : ℚ)
                + s.serving_interference_free / s.serving_duration)
              / (((((MACOL.qlookup (q.q_count j) ctx).getD 0 : ℕ)) : ℚ) + 1) ∧
        (∀ (j2 : ℕ) (c2 : String), j2 ≠ j ∨ c2 ≠ ctx →
            MACOL.get_reward (CLMAB.lostReward q j s) j2 c2 = MACOL.get_reward q j2 c2 ∧
            MACOL.qlookup ((CLMAB.lostReward q j s).q_count j2) c2
              = MACOL.qlookup (q.q_count j2) c2)) ∧
    (∀ (q : MACOL.QStore) (stations : List Toy.BaseStation) (j : ℕ)
        (bs : Toy.BaseStation) (ctx : String),
        stations[j]? = some bs → bs.MAB_context = some ctx →
        MACOL.qlookup ((Toy.rewardPass stations [j] q).q_count j) ctx
            = some ((MACOL.qlookup (q.q_count j) ctx).getD 0 + 1) ∧
        MACOL.get_reward (Toy.rewardPass stations [j] q) j ctx
            = (((MACOL.qlookup (q.q_value j) ctx).getD 0)
                  * ((((MACOL.qlookup (q.q_count j) ctx).getD 0 : ℕ)) : ℚ)
                + bs.serving_inter_free)
              / (((((MACOL.qlookup (q.q_count j) ctx).getD 0 : ℕ)) : ℚ) + 1)) := by
  refine ⟨?_, ?_, ?_⟩
  · intro q j s hd
    simp [CLMAB.lostReward, hd]
  · intro q j s ctx hd hctx
    have hred : CLMAB.lostReward q j s
        = MACOL.update_reward q j ctx (s.serving_interference_free / s.serving_duration) := by
      rw [CLMAB.lostReward, if_neg hd, hctx]
      rfl
    refine ⟨?_, ?_, ?_⟩
    · rw [hred, MACOL.update_reward_count_self]
    · rw [MACOL.get_reward, hred, MACOL.update_reward_value_self]
      rfl
    · intro j2 c2 hne
      exact ⟨by rw [MACOL.get_reward, MACOL.get_reward, hred,
                    MACOL.update_reward_value_frame _ _ _ _ _ _ hne],
             by rw [hred, MACOL.update_reward_count_frame _ _ _ _ _ _ hne]⟩
  · intro q stations j bs ctx hj hctx
    have hred : Toy.rewardPass stations [j] q
        = MACOL.update_reward q j ctx bs.serving_inter_free := by
      rw [Toy.rewardPass]
      simp only [List.foldl_cons, List.foldl_nil, hj, hctx]
      rfl
    exact ⟨by rw [hred, MACOL.update_reward_count_self],
           by rw [MACOL.get_reward, hred, MACOL.update_reward_value_self]; rfl⟩

/-- Witness for C2 at concrete inputs: a CLMAB sector with a zero-length
connection leaves the store unchanged; with duration 5 and 3 s
interference-free it records 3/5 under its snapshotted context "[0]"
(count 1) and leaves agent 1 unchanged; the toy station with duration 5
and 3 interference-free ticks records the raw 3. -/
theorem macol_C2_witness :
    CLMAB.lostReward MACOL.emptyQ 0 exSectorServingZero = MACOL.emptyQ ∧
    MACOL.qlookup ((CLMAB.lostReward MACOL.emptyQ 0 exSectorServing).q_count 0) "[0]"
        = some ((MACOL.qlookup (MACOL.emptyQ.q_count 0) "[0]").getD 0 + 1) ∧
    MACOL.get_reward (CLMAB.lostReward MACOL.emptyQ 0 exSectorServing) 0 "[0]"
        = (((MACOL.qlookup (MACOL.emptyQ.q_value 0) "[0]").getD 0)
              * ((((MACOL.qlookup (MACOL.emptyQ.q_count 0) "[0]").getD 0 : ℕ)) : ℚ)
            + exSectorServing.serving_interference_free / exSectorServing.serving_duration)
          / (((((MACOL.qlookup (MACOL.emptyQ.q_count 0) "[0]").getD 0 : ℕ)) : ℚ) + 1) ∧
    MACOL.get_reward (CLMAB.lostReward MACOL.emptyQ 0 exSectorServing) 1 "[0]"
        = MACOL.get_reward MACOL.emptyQ 1 "[0]" ∧
    MACOL.qlookup ((Toy.rewardPass [exToyServing] [0] MACOL.emptyQ).q_count 0) "[]"
        = some ((MACOL.qlookup (MACOL.emptyQ.q_count 0) "[]").getD 0 + 1) ∧
    MACOL.get_reward (Toy.rewardPass [exToyServing] [0] MACOL.emptyQ) 0 "[]"
        = (((MACOL.qlookup (MACOL.emptyQ.q_value 0) "[]").getD 0)
              * ((((MACOL.qlookup (MACOL.emptyQ.q_count 0) "[]").getD 0 : ℕ)) : ℚ)
            + exToyServing.serving_inter_free)
          / (((((MACOL.qlookup (MACOL.emptyQ.q_count 0) "[]").getD 0 : ℕ)) : ℚ) + 1) :=
  ⟨macol_C2.1 MACOL.emptyQ 0 exSectorServingZero rfl,
   (macol_C2.2.1 MACOL.emptyQ 0 exSectorServing "[0]" (by norm_num [exSectorServing]) rfl).1,
   (macol_C2.2.1 MACOL.emptyQ 0 exSectorServing "[0]" (by norm_num [exSectorServing]) rfl).2.1,
   ((macol_C2.2.1 MACOL.emptyQ 0 exSectorServing "[0]" (by norm_num [exSectorServing]) rfl).2.2
      1 "[0]" (Or.inl (by norm_num))).1,
   (macol_C2.2.2 MACOL.emptyQ [exToyServing] 0 exToyServing "[]" rfl rfl).1,
   (macol_C2.2.2 MACOL.emptyQ [exToyServing] 0 exToyServing "[]" rfl rfl).2⟩

/-- C2 counterexample: the claim (ratio reward; no update at all on a
zero-length connection) fails on the toy implementation.  Running one
toy epoch in which the only station, serving with duration 5 and
interference-free time 3, loses its vehicle records mean reward 3 — the
raw interference-free duration — not 3/5; and running it on the station
with a zero-length connection still writes the entry (count becomes 1). -/
theorem macol_C2_counterexample :
    MACOL.get_reward (Toy.epoch exOracleLost 10 exToyStateServing).sol.q 0 "[]" = 3 ∧
    ((3 : ℚ) ≠ 3 / 5) ∧
    MACOL.qlookup ((Toy.epoch exOracleLost 10 exToyStateZero).sol.q.q_count 0) "[]"
        = some 1 := by
  refine ⟨?_, by norm_num, ?_⟩
  · simp [Toy.epoch, Toy.explorationUpdate, Toy.mkSolution, Toy.mkSolutionWith, Toy.dropPass,
          Toy.rewardPass, Toy.lost_vehicle, exToyStateServing, exToyServing, exOracleLost,
          Toy.acquisitionPass, Toy.acqStep, Toy.accrualPass, Toy.accrue, Toy.is_backoff,
          MACOL.get_reward, MACOL.update_reward, MACOL.emptyQ, MACOL.qlookup, MACOL.setEntry]
  · simp [Toy.epoch, Toy.explorationUpdate, Toy.mkSolution, Toy.mkSolutionWith, Toy.dropPass,
          Toy.rewardPass, Toy.lost_vehicle, exToyStateZero, exToyServingZero, exToyServing,
          exOracleLost, Toy.acquisitionPass, Toy.acqStep, Toy.accrualPass, Toy.accrue,
          Toy.is_backoff, MACOL.update_reward, MACOL.emptyQ, MACOL.qlookup, MACOL.setEntry]

theorem Toy.acqStep_exploit (sol : Toy.Solution) (o : Toy.Oracle) (t : ℚ)
    (l : List Toy.BaseStation) (j : ℕ) (bs : Toy.BaseStation) (v : ℕ)
    (hj : l[j]? = some bs) (hserv : bs.serving_vehicle = none)
    (hbk : Toy.is_backoff bs t = false) (hcand : o.candidate j = some v)
    (hdraw : ¬ (o.draw j < sol.exploration_rate)) :
    Toy.acqStep sol o t l j =
      (if MACOL.get_reward sol.q j (Toy.get_current_context j l) = 0 ∨
          MACOL.get_reward sol.q j (Toy.get_current_context j l) > MACOL.get_threshold sol.q j
       then l.set j { Toy.associate_vehicle bs v with
                        MAB_context := some (Toy.get_current_context j l) }
       else l.set j (Toy.backoff bs t (Toy.get_average_serving_duration bs))) := by
  rw [Toy.acqStep, hj]
  simp only [hserv, Option.isSome_none, Bool.false_eq_true, if_false, hbk, hcand]
  rw [if_neg hdraw]
  by_cases hP : MACOL.get_reward sol.q j (Toy.get_current_context j l) = 0 ∨
      MACOL.get_reward sol.q j (Toy.get_current_context j l) > MACOL.get_threshold sol.q j
  · rw [if_pos hP]
    simp [hP]
  · rw [if_neg hP]
    simp [hP]

theorem CLMAB.sector_acqStep_exploit (st : CLMAB.AlgoState) (o : CLMAB.Oracle) (t : ℚ)
    (l : List CLMAB.MySector) (j : ℕ) (s : CLMAB.MySector) (v : ℕ)
    (hj : l[j]? = some s) (hserv : s.serving_node = none)
    (hbk : CLMAB.is_backoff s t = false) (hcand : o.candidate j = some v)
    (hdraw : ¬ (o.draw j < st.exploration_rate)) :
    CLMAB.acqStep st o t l j =
      (if MACOL.get_reward st.q j (CLMAB.get_current_context l s) = 0 ∨
          MACOL.get_reward st.q j (CLMAB.get_current_context l s) > MACOL.get_threshold st.q j
       then l.set j { CLMAB.associate_vehicle s v with
                        MAB_context := some (CLMAB.get_current_context l s) }
       else l.set j (CLMAB.backoff s t (MACOL.get_threshold st.q j))) := by
  rw [CLMAB.acqStep, hj]
  simp only [hserv, Option.isSome_none, Bool.false_eq_true, if_false, hbk, hcand]
  rw [if_neg hdraw]
  by_cases hP : MACOL.get_reward st.q j (CLMAB.get_current_context l s) = 0 ∨
      MACOL.get_reward st.q j (CLMAB.get_current_context l s) > MACOL.get_threshold st.q j
  · rw [if_pos hP]
    simp [hP]
  · rw [if_neg hP]
    simp [hP]

/-- C7: in the exploitation branch (draw not below the exploration rate,
idle agent, candidate present) both implementations decide serve exactly
when the learned reward r for the current context is 0 or strictly
exceeds the threshold; an unseen context (r = 0) is served regardless of
the threshold, and r equal to a nonzero threshold leaves the agent
without a client (backoff). -/
theorem macol_C7 :
    (∀ (sol : Toy.Solution) (o : Toy.Oracle) (t : ℚ) (l : List Toy.BaseStation)
        (j : ℕ) (bs : Toy.BaseStation) (v : ℕ),
      l[j]? = some bs → bs.serving_vehicle = none → Toy.is_backoff bs t = false →
      o.candidate j = some v → ¬ (o.draw j < sol.exploration_rate) →
      ∃ bs2, (Toy.acqStep sol o t l j)[j]? = some bs2 ∧
        (bs2.serving_vehicle = some v ↔
          (MACOL.get_reward sol.q j (Toy.get_current_context j l) = 0 ∨
           MACOL.get_reward sol.q j (Toy.get_current_context j l)
             > MACOL.get_threshold sol.q j)) ∧
        (MACOL.get_reward sol.q j (Toy.get_current_context j l) = 0 →
          bs2.serving_vehicle = some v) ∧
        (MACOL.get_reward sol.q j (Toy.get_current_context j l)
            = MACOL.get_threshold sol.q j →
         MACOL.get_reward sol.q j (Toy.get_current_context j l) ≠ 0 →
          bs2.serving_vehicle = none)) ∧
    (∀ (st : CLMAB.AlgoState) (o : CLMAB.Oracle) (t : ℚ) (l : List CLMAB.MySector)
        (j : ℕ) (s : CLMAB.MySector) (v : ℕ),
      l[j]? = some s → s.serving_node = none → CLMAB.is_backoff s t = false →
      o.candidate j = some v → ¬ (o.draw j < st.exploration_rate) →
      ∃ s2, (CLMAB.acqStep st o t l j)[j]? = some s2 ∧
        (s2.serving_node = some v ↔
          (MACOL.get_reward st.q j (CLMAB.get_current_context l s) = 0 ∨
           MACOL.get_reward st.q j (CLMAB.get_current_context l s)
             > MACOL.get_threshold st.q j))) := by
  constructor
  · intro sol o t l j bs v hj hserv hbk hcand hdraw
    have hlt : j < l.length := by
      rcases List.getElem?_eq_some.mp hj with ⟨h, _⟩
      exact h
    rw [Toy.acqStep_exploit sol o t l j bs v hj hserv hbk hcand hdraw]
    by_cases hP : MACOL.get_reward sol.q j (Toy.get_current_context j l) = 0 ∨
        MACOL.get_reward sol.q j (Toy.get_current_context j l) > MACOL.get_threshold sol.q j
    · rw [if_pos hP]
      refine ⟨_, List.getElem?_set_eq_of_lt _ hlt, ?_, ?_, ?_⟩
      · simpa [Toy.associate_vehicle] using hP
      · intro _
        simp [Toy.associate_vehicle]
      · intro heq hne
        rcases hP with h0 | hgt
        · exact absurd h0 hne
        · rw [heq] at hgt
          exact absurd hgt (lt_irrefl _)
    · rw [if_neg hP]
      refine ⟨_, List.getElem?_set_eq_of_lt _ hlt, ?_, ?_, ?_⟩
      · simp only [Toy.backoff, hserv]
        simpa using hP
      · intro h0
        exact absurd (Or.inl h0) hP
      · intro _ _
        simp [Toy.backoff, hserv]
  · intro st o t l j s v hj hserv hbk hcand hdraw
    have hlt : j < l.length := by
      rcases List.getElem?_eq_some.mp hj with ⟨h, _⟩
      exact h
    rw [CLMAB.sector_acqStep_exploit st o t l j s v hj hserv hbk hcand hdraw]
    by_cases hP : MACOL.get_reward st.q j (CLMAB.get_current_context l s) = 0 ∨
        MACOL.get_reward st.q j (CLMAB.get_current_context l s) > MACOL.get_threshold st.q j
    · rw [if_pos hP]
      refine ⟨_, List.getElem?_set_eq_of_lt _ hlt, ?_⟩
      simpa [CLMAB.associate_vehicle] using hP
    · rw [if_neg hP]
      refine ⟨_, List.getElem?_set_eq_of_lt _ hlt, ?_⟩
      simp only [CLMAB.backoff, hserv]
      simpa using hP

/-- Witness for C7 at concrete inputs: station 0 of exToyPair (context
"[1]", learned reward 1/4, threshold 1/2) and sector 0 of exSectorPair
in the exploitation branch. -/
theorem macol_C7_witness :
    (∃ bs2, (Toy.acqStep exToySolution exOracleOffer 9000 exToyPair 0)[0]? = some bs2 ∧
        (bs2.serving_vehicle = some 5 ↔
          (MACOL.get_reward exToySolution.q 0 (Toy.get_current_context 0 exToyPair) = 0 ∨
           MACOL.get_reward exToySolution.q 0 (Toy.get_current_context 0 exToyPair)
             > MACOL.get_threshold exToySolution.q 0)) ∧
        (MACOL.get_reward exToySolution.q 0 (Toy.get_current_context 0 exToyPair) = 0 →
          bs2.serving_vehicle = some 5) ∧
        (MACOL.get_reward exToySolution.q 0 (Toy.get_current_context 0 exToyPair)
            = MACOL.get_threshold exToySolution.q 0 →
         MACOL.get_reward exToySolution.q 0 (Toy.get_current_context 0 exToyPair) ≠ 0 →
          bs2.serving_vehicle = none)) ∧
    (∃ s2, (CLMAB.acqStep exClmabAlgo exClmabOracle 20 exSectorPair 0)[0]? = some s2 ∧
        (s2.serving_node = some 5 ↔
          (MACOL.get_reward exClmabAlgo.q 0 (CLMAB.get_current_context exSectorPair exSectorIdle) = 0 ∨
           MACOL.get_reward exClmabAlgo.q 0 (CLMAB.get_current_context exSectorPair exSectorIdle)
             > MACOL.get_threshold exClmabAlgo.q 0))) :=
  ⟨macol_C7.1 exToySolution exOracleOffer 9000 exToyPair 0 exToyIdle 5 rfl rfl
      (by norm_num [Toy.is_backoff, exToyIdle]) rfl
      (by norm_num [exOracleOffer, exToySolution]),
   macol_C7.2 exClmabAlgo exClmabOracle 20 exSectorPair 0 exSectorIdle 5 rfl rfl
      (by norm_num [CLMAB.is_backoff, exSectorIdle]) rfl
      (by norm_num [exClmabOracle, exClmabAlgo])⟩

/-- C1 (amended): when the acquisition evaluation decides to back off
(exploitation with nonzero learned reward not above the threshold), the
toy implementation arms the timer with start_time = sim_time and
duration = the agent's average historical serving duration
(total_serving_duration / total_serving_count); CLMAB instead arms it
with start_time = sim_time and duration = the agent's current threshold
value get_threshold — a Q-mean statistic, not a serving-duration one. -/
theorem macol_C1 :
    (∀ (sol : Toy.Solution) (o : Toy.Oracle) (t : ℚ) (l : List Toy.BaseStation)
        (j : ℕ) (bs : Toy.BaseStation) (v : ℕ),
      l[j]? = some bs → bs.serving_vehicle = none → Toy.is_backoff bs t = false →
      o.candidate j = some v → ¬ (o.draw j < sol.exploration_rate) →
      ¬ (MACOL.get_reward sol.q j (Toy.get_current_context j l) = 0 ∨
         MACOL.get_reward sol.q j (Toy.get_current_context j l)
           > MACOL.get_threshold sol.q j) →
      (Toy.acqStep sol o t l j)[j]?
          = some (Toy.backoff bs t (Toy.get_average_serving_duration bs)) ∧
      (Toy.backoff bs t (Toy.get_average_serving_duration bs)).MACOL_backoff
          = (t, bs.total_serving_duration / (bs.total_serving_count : ℚ))) ∧
    (∀ (st : CLMAB.AlgoState) (o : CLMAB.Oracle) (t : ℚ) (l : List CLMAB.MySector)
        (j : ℕ) (s : CLMAB.MySector) (v : ℕ),
      l[j]? = some s → s.serving_node = none → CLMAB.is_backoff s t = false →
      o.candidate j = some v → ¬ (o.draw j < st.exploration_rate) →
      ¬ (MACOL.get_reward st.q j (CLMAB.get_current_context l s) = 0 ∨
         MACOL.get_reward st.q j (CLMAB.get_current_context l s)
           > MACOL.get_threshold st.q j) →
      (CLMAB.acqStep st o t l j)[j]?
          = some (CLMAB.backoff s t (MACOL.get_threshold st.q j)) ∧
      (CLMAB.backoff s t (MACOL.get_threshold st.q j)).MAB_backoff
          = (t, MACOL.get_threshold st.q j)) := by
  constructor
  · intro sol o t l j bs v hj hserv hbk hcand hdraw hP
    have hlt : j < l.length := by
      rcases List.getElem?_eq_some.mp hj with ⟨h, _⟩
      exact h
    rw [Toy.acqStep_exploit sol o t l j bs v hj hserv hbk hcand hdraw, if_neg hP]
    exact ⟨List.getElem?_set_eq_of_lt _ hlt, rfl⟩
  · intro st o t l j s v hj hserv hbk hcand hdraw hP
    have hlt : j < l.length := by
      rcases List.getElem?_eq_some.mp hj with ⟨h, _⟩
      exact h
    rw [CLMAB.sector_acqStep_exploit st o t l j s v hj hserv hbk hcand hdraw, if_neg hP]
    exact ⟨List.getElem?_set_eq_of_lt _ hlt, rfl⟩

/-- Witness for C1 at concrete inputs: station 0 of exToyPair and sector
0 of exSectorPair both read learned reward 1/4 for context "[1]" against
threshold 1/2, so both back off; the toy timer gets duration 14/2 = 7,
the CLMAB one gets the threshold. -/
theorem macol_C1_witness :
    ((Toy.acqStep exToySolution exOracleOffer 9000 exToyPair 0)[0]?
        = some (Toy.backoff exToyIdle 9000 (Toy.get_average_serving_duration exToyIdle)) ∧
     (Toy.backoff exToyIdle 9000 (Toy.get_average_serving_duration exToyIdle)).MACOL_backoff
        = (9000, exToyIdle.total_serving_duration / (exToyIdle.total_serving_count : ℚ))) ∧
    ((CLMAB.acqStep exClmabAlgo exClmabOracle 20 exSectorPair 0)[0]?
        = some (CLMAB.backoff exSectorIdle 20 (MACOL.get_threshold exClmabAlgo.q 0)) ∧
     (CLMAB.backoff exSectorIdle 20 (MACOL.get_threshold exClmabAlgo.q 0)).MAB_backoff
        = (20, MACOL.get_threshold exClmabAlgo.q 0)) :=
  ⟨macol_C1.1 exToySolution exOracleOffer 9000 exToyPair 0 exToyIdle 5 rfl rfl
      (by norm_num [Toy.is_backoff, exToyIdle]) rfl
      (by norm_num [exOracleOffer, exToySolution])
      (by norm_num [exToySolution, exToyPair, exToyIdle, exToyServing, exQ,
                    Toy.get_current_context, Toy.ctxBits, Toy.servingChar,
                    MACOL.get_reward, MACOL.get_threshold, MACOL.qlookup]),
   macol_C1.2 exClmabAlgo exClmabOracle 20 exSectorPair 0 exSectorIdle 5 rfl rfl
      (by norm_num [CLMAB.is_backoff, exSectorIdle]) rfl
      (by norm_num [exClmabOracle, exClmabAlgo])
      (by norm_num [exClmabAlgo, exSectorPair, exSectorIdle, exSectorServing, exQ,
                    CLMAB.get_current_context,
                    MACOL.get_reward, MACOL.get_threshold, MACOL.qlookup])⟩

/-- C1 counterexample: the claim (backoff duration = average historical
serving duration in every implementation) fails on CLMAB: sector 0 of
exSectorPair backs off at t = 20 and its timer is armed with duration
1/2 — its threshold — although its average serving duration
(total served duration / completed connections) is 14/2 = 7. -/
theorem macol_C1_counterexample :
    ((CLMAB.acqStep exClmabAlgo exClmabOracle 20 exSectorPair 0)[0]?.map
        (fun s2 => s2.MAB_backoff)) = some ((20 : ℚ), (1 : ℚ)/2) ∧
    exSectorIdle.total_duration / ((exSectorIdle.period_conn_count : ℕ) : ℚ) = 7 ∧
    ((1 : ℚ)/2 ≠ 7) := by
  refine ⟨?_, by norm_num [exSectorIdle], by norm_num⟩
  norm_num [CLMAB.acqStep, exClmabAlgo, exClmabOracle, exSectorPair, exSectorIdle,
            exSectorServing, CLMAB.is_backoff, CLMAB.get_current_context, CLMAB.backoff,
            MACOL.get_reward, MACOL.get_threshold, MACOL.qlookup, exQ]

theorem Toy.ctxBits_of_lt (l : List Toy.BaseStation) :
    ∀ i j, i < j → Toy.ctxBits i j l = l.map Toy.servingChar := by
  induction l with
  | nil => intro i j h; rfl
  | cons bs rest ih =>
      intro i j h
      rw [Toy.ctxBits]
      rw [if_neg (by omega)]
      rw [ih i (j + 1) (by omega)]
      rfl

theorem Toy.ctxBits_eraseIdx (l : List Toy.BaseStation) :
    ∀ i j, j ≤ i → Toy.ctxBits i j l = (l.eraseIdx (i - j)).map Toy.servingChar := by
  induction l with
  | nil => intro i j h; rfl
  | cons bs rest ih =>
      intro i j h
      rw [Toy.ctxBits]
      by_cases hji : j = i
      · subst hji
        rw [if_pos rfl, Nat.sub_self, List.eraseIdx_cons_zero]
        rw [Toy.ctxBits_of_lt rest j (j + 1) (by omega)]
        rfl
      · rw [if_neg hji]
        have hstep : i - j = (i - (j + 1)) + 1 := by omega
        rw [hstep, List.eraseIdx_cons_succ]
        rw [ih i (j + 1) (by omega)]
        rfl

theorem Toy.get_current_context_data (i : ℕ) (l : List Toy.BaseStation) :
    (Toy.get_current_context i l).data
      = '[' :: (l.eraseIdx i).map Toy.servingChar ++ [']'] := by
  rw [Toy.get_current_context]
  rw [Toy.ctxBits_eraseIdx l i 0 (Nat.zero_le i), Nat.sub_zero]

/-- C8 (amended): the toy Context Encoder is a pure function of its
arguments whose output at agent index i is fully determined as the
bracket-delimited string "[" bits "]" over the agent's neighbour
sequence (every other station of the list, in the fixed list order):
the character at interior position k+1 is '1' iff the k-th neighbour
currently serves a vehicle and '0' otherwise, and the total string
length is (neighbour count) + 2 — not the neighbour count, because of
the two bracket characters.  The CLMAB encoder has the same bracketed
shape over the sector's neighbour_list. -/
theorem macol_C8 :
    (∀ (i : ℕ) (l : List Toy.BaseStation), i < l.length →
      (Toy.get_current_context i l).data
          = '[' :: (l.eraseIdx i).map Toy.servingChar ++ [']'] ∧
      (Toy.get_current_context i l).length = (l.length - 1) + 2 ∧
      (∀ (k : ℕ) (hk : k < (l.eraseIdx i).length),
        (Toy.get_current_context i l).data[k + 1]?
          = some (if (l.eraseIdx i)[k].serving_vehicle.isSome then '1' else '0'))) ∧
    (∀ (l : List CLMAB.MySector) (s : CLMAB.MySector),
      (CLMAB.get_current_context l s).data
          = '[' :: (s.neighbour_list.map
              (fun k => if ((l[k]?).map (fun nb => nb.serving_node.isSome)).getD false
                        then '1' else '0')) ++ [']'] ∧
      (CLMAB.get_current_context l s).length = s.neighbour_list.length + 2) := by
  constructor
  · intro i l hi
    refine ⟨Toy.get_current_context_data i l, ?_, ?_⟩
    · show (Toy.get_current_context i l).data.length = _
      rw [Toy.get_current_context_data]
      simp [List.length_eraseIdx, hi]
    · intro k hk
      rw [Toy.get_current_context_data]
      rw [List.cons_append, List.getElem?_cons_succ]
      rw [List.getElem?_append_left (by simpa using hk)]
      simp only [List.getElem?_map]
      rw [List.getElem?_eq_getElem hk]
      rfl
  · intro l s
    refine ⟨rfl, ?_⟩
    show (CLMAB.get_current_context l s).data.length = _
    rw [CLMAB.get_current_context]
    simp

/-- Witness for C8 at a concrete input: station 0 of the two-station
list exToyPair has one neighbour (which is serving), so its context is
the three-character string "[1]". -/
theorem macol_C8_witness :
    (Toy.get_current_context 0 exToyPair).data
        = '[' :: (exToyPair.eraseIdx 0).map Toy.servingChar ++ [']'] ∧
    (Toy.get_current_context 0 exToyPair).length = (exToyPair.length - 1) + 2 ∧
    (∀ (k : ℕ) (hk : k < (exToyPair.eraseIdx 0).length),
      (Toy.get_current_context 0 exToyPair).data[k + 1]?
        = some (if (exToyPair.eraseIdx 0)[k].serving_vehicle.isSome then '1' else '0')) :=
  macol_C8.1 0 exToyPair (by norm_num [exToyPair])

/-- C8 counterexample: the claim says the produced string has length
equal to the neighbour count.  For station 0 of exToyPair the neighbour
count is 1 but the produced string "[1]" has length 3. -/
theorem macol_C8_counterexample :
    (Toy.get_current_context 0 exToyPair).length = 3 ∧
    exToyPair.length - 1 = 1 ∧
    (3 : ℕ) ≠ 1 := by
  refine ⟨?_, by norm_num [exToyPair], by norm_num⟩
  decide

theorem Toy.is_backoff_mono (bs : Toy.BaseStation) (t t2 : ℚ) (h : t ≤ t2)
    (hb : Toy.is_backoff bs t = false) : Toy.is_backoff bs t2 = false := by
  simp only [Toy.is_backoff, decide_eq_false_iff_not] at hb ⊢
  intro h2
  exact hb (by linarith)

theorem Toy.snb_mono (l : List Toy.BaseStation) (t t2 : ℚ) (h : t ≤ t2)
    (hs : Toy.ServeNotBackoff l t) : Toy.ServeNotBackoff l t2 :=
  fun bs hm hserve => Toy.is_backoff_mono bs t t2 h (hs bs hm hserve)

theorem Toy.dropPass_snb (lost : ℕ → Bool) (t : ℚ) :
    ∀ (l : List Toy.BaseStation) (j : ℕ), Toy.ServeNotBackoff l t →
      Toy.ServeNotBackoff (Toy.dropPass lost j l).1 t := by
  intro l
  induction l with
  | nil => intro j _; intro bs hm; simp [Toy.dropPass] at hm
  | cons bs rest ih =>
      intro j hs
      have hrest : Toy.ServeNotBackoff rest t := fun b hm hsv => hs b (List.mem_cons_of_mem _ hm) hsv
      have hhead := hs bs (List.mem_cons_self _ _)
      intro b2 hm2 hsv2
      rw [Toy.dropPass] at hm2
      by_cases h1 : bs.serving_vehicle.isSome
      · by_cases h2 : lost j
        · simp only [h1, h2, if_true, and_true] at hm2
          rcases List.mem_cons.mp hm2 with he | hr
          · subst he
            simp [Toy.lost_vehicle] at hsv2
          · exact ih (j + 1) hrest b2 hr hsv2
        · simp only [h1, h2, if_true, if_false, Bool.false_eq_true] at hm2
          rcases List.mem_cons.mp hm2 with he | hr
          · subst he
            exact hhead hsv2
          · exact ih (j + 1) hrest b2 hr hsv2
      · simp only [h1, Bool.false_eq_true, if_false] at hm2
        rcases List.mem_cons.mp hm2 with he | hr
        · subst he
          exact hhead hsv2
        · exact ih (j + 1) hrest b2 hr hsv2

theorem Toy.acqStep_cases (sol : Toy.Solution) (o : Toy.Oracle) (t : ℚ)
    (l : List Toy.BaseStation) (j : ℕ) :
    Toy.acqStep sol o t l j = l ∨
    ∃ bs v, l[j]? = some bs ∧ bs.serving_vehicle = none ∧ Toy.is_backoff bs t = false ∧
      (Toy.acqStep sol o t l j
          = l.set j { Toy.associate_vehicle bs v with
                        MAB_context := some (Toy.get_current_context j l) } ∨
       Toy.acqStep sol o t l j
          = l.set j (Toy.backoff bs t (Toy.get_average_serving_duration bs))) := by
  rcases hj : l[j]? with _ | bs
  · left
    rw [Toy.acqStep, hj]
  · by_cases hserv : bs.serving_vehicle.isSome
    · left
      rw [Toy.acqStep, hj]
      simp [hserv]
    · have hserv2 : bs.serving_vehicle = none := by
        cases hs2 : bs.serving_vehicle
        · rfl
        · rw [hs2] at hserv; simp at hserv
      by_cases hbk : Toy.is_backoff bs t
      · left
        rw [Toy.acqStep, hj]
        simp [hserv, hbk]
      · rcases hc : o.candidate j with _ | v
        · left
          rw [Toy.acqStep, hj]
          simp [hserv, hbk, hc]
        · right
          refine ⟨bs, v, rfl, hserv2, by simpa using hbk, ?_⟩
          rw [Toy.acqStep, hj]
          simp only [hserv, Bool.false_eq_true, if_false, hbk, hc,
                     Option.isSome_none]
          by_cases hdraw : o.draw j < sol.exploration_rate
          · rw [if_pos (by simp [hdraw])]
            left; rfl
          · rw [if_neg hdraw]
            by_cases hP : MACOL.get_reward sol.q j (Toy.get_current_context j l) = 0 ∨
                MACOL.get_reward sol.q j (Toy.get_current_context j l)
                  > MACOL.get_threshold sol.q j
            · rw [if_pos (by simp [hP])]
              left; rfl
            · rw [if_neg (by simp [hP])]
              right; rfl

theorem Toy.acqStep_snb (sol : Toy.Solution) (o : Toy.Oracle) (t : ℚ)
    (l : List Toy.BaseStation) (j : ℕ) (hs : Toy.ServeNotBackoff l t) :
    Toy.ServeNotBackoff (Toy.acqStep sol o t l j) t := by
  rcases Toy.acqStep_cases sol o t l j with heq | ⟨bs, v, hj, hserv, hbk, hca⟩
  · rw [heq]; exact hs
  · rcases hca with heq | heq
    · rw [heq]
      intro b2 hm2 hsv2
      rcases List.mem_or_eq_of_mem_set hm2 with hmem | he
      · exact hs b2 hmem hsv2
      · subst he
        simpa [Toy.is_backoff, Toy.associate_vehicle] using hbk
    · rw [heq]
      intro b2 hm2 hsv2
      rcases List.mem_or_eq_of_mem_set hm2 with hmem | he
      · exact hs b2 hmem hsv2
      · subst he
        rw [show (Toy.backoff bs t (Toy.get_average_serving_duration bs)).serving_vehicle
              = bs.serving_vehicle from rfl, hserv] at hsv2
        simp at hsv2

theorem Toy.acqFold_snb (sol : Toy.Solution) (o : Toy.Oracle) (t : ℚ) :
    ∀ (idxs : List ℕ) (l : List Toy.BaseStation), Toy.ServeNotBackoff l t →
      Toy.ServeNotBackoff (List.foldl (Toy.acqStep sol o t) l idxs) t := by
  intro idxs
  induction idxs with
  | nil => intro l h; exact h
  | cons j idxs ih =>
      intro l h
      exact ih (Toy.acqStep sol o t l j) (Toy.acqStep_snb sol o t l j h)

theorem Toy.accrualPass_snb (f : ℕ → Bool) (t : ℚ) :
    ∀ (l : List Toy.BaseStation) (j : ℕ), Toy.ServeNotBackoff l t →
      Toy.ServeNotBackoff (Toy.accrualPass f j l) t := by
  intro l
  induction l with
  | nil => intro j h; exact h
  | cons bs rest ih =>
      intro j h
      have hrest : Toy.ServeNotBackoff rest t :=
        fun b hm hsv => h b (List.mem_cons_of_mem _ hm) hsv
      have hhead := h bs (List.mem_cons_self _ _)
      intro b2 hm2 hsv2
      rw [Toy.accrualPass] at hm2
      rcases List.mem_cons.mp hm2 with he | hr
      · subst he
        by_cases hsv : bs.serving_vehicle.isSome
        · have : Toy.is_backoff (Toy.accrue (f j) bs) t = Toy.is_backoff bs t := by
            rw [Toy.accrue]
            simp [hsv, Toy.is_backoff]
          rw [this]
          exact hhead hsv
        · rw [Toy.accrue, if_neg (by simpa using hsv)] at hsv2 ⊢
          exact hhead hsv2
      · exact ih (j + 1) hrest b2 hr hsv2

theorem Toy.epoch_snb (o : Toy.Oracle) (t2 : ℚ) (s : Toy.State)
    (hs : Toy.ServeNotBackoff s.stations t2) :
    Toy.ServeNotBackoff (Toy.epoch o t2 s).stations t2 := by
  exact Toy.accrualPass_snb o.interFree t2 _ 0
    (Toy.acqFold_snb _ o t2 _ _
      (Toy.dropPass_snb o.lost t2 s.stations 0 hs))

theorem Toy.reachable_snb : ∀ (s : Toy.State) (t : ℚ), Toy.Reachable s t →
    Toy.ServeNotBackoff s.stations t := by
  intro s t h
  induction h with
  | init n =>
      intro bs hm hsv
      rw [List.eq_of_mem_replicate hm] at hsv
      simp [Toy.mkBaseStation] at hsv
  | step s t t2 o hreach hle ih =>
      exact Toy.epoch_snb o t2 s (Toy.snb_mono _ t t2 hle ih)

theorem CLMAB.sector_backoff_mono (s : CLMAB.MySector) (t t2 : ℚ) (h : t ≤ t2)
    (hb : CLMAB.is_backoff s t = false) : CLMAB.is_backoff s t2 = false := by
  simp only [CLMAB.is_backoff, decide_eq_false_iff_not] at hb ⊢
  intro h2
  exact hb (by linarith)

theorem CLMAB.sector_snb_mono (l : List CLMAB.MySector) (t t2 : ℚ) (h : t ≤ t2)
    (hs : CLMAB.ServeNotBackoff l t) : CLMAB.ServeNotBackoff l t2 :=
  fun s hm hserve => CLMAB.sector_backoff_mono s t t2 h (hs s hm hserve)

theorem CLMAB.sector_dropPass_snb (lost : ℕ → Bool) (t : ℚ) :
    ∀ (l : List CLMAB.MySector) (j : ℕ), CLMAB.ServeNotBackoff l t →
      CLMAB.ServeNotBackoff (CLMAB.dropPass lost j l).1 t := by
  intro l
  induction l with
  | nil => intro j _; intro s hm; simp [CLMAB.dropPass] at hm
  | cons s rest ih =>
      intro j hs
      have hrest : CLMAB.ServeNotBackoff rest t := fun b hm hsv => hs b (List.mem_cons_of_mem _ hm) hsv
      have hhead := hs s (List.mem_cons_self _ _)
      intro b2 hm2 hsv2
      rw [CLMAB.dropPass] at hm2
      by_cases h1 : s.serving_node.isSome
      · by_cases h2 : lost j
        · simp only [h1, h2, if_true, and_true] at hm2
          rcases List.mem_cons.mp hm2 with he | hr
          · subst he
            simp [CLMAB.lost_vehicle] at hsv2
          · exact ih (j + 1) hrest b2 hr hsv2
        · simp only [h1, h2, if_true, if_false, Bool.false_eq_true] at hm2
          rcases List.mem_cons.mp hm2 with he | hr
          · subst he
            exact hhead hsv2
          · exact ih (j + 1) hrest b2 hr hsv2
      · simp only [h1, Bool.false_eq_true, if_false] at hm2
        rcases List.mem_cons.mp hm2 with he | hr
        · subst he
          exact hhead hsv2
        · exact ih (j + 1) hrest b2 hr hsv2

theorem CLMAB.sector_acqStep_cases (st : CLMAB.AlgoState) (o : CLMAB.Oracle) (t : ℚ)
    (l : List CLMAB.MySector) (j : ℕ) :
    CLMAB.acqStep st o t l j = l ∨
    ∃ s v, l[j]? = some s ∧ s.serving_node = none ∧ CLMAB.is_backoff s t = false ∧
      (CLMAB.acqStep st o t l j
          = l.set j { CLMAB.associate_vehicle s v with
                        MAB_context := some (CLMAB.get_current_context l s) } ∨
       CLMAB.acqStep st o t l j
          = l.set j (CLMAB.backoff s t (MACOL.get_threshold st.q j))) := by
  rcases hj : l[j]? with _ | s
  · left
    rw [CLMAB.acqStep, hj]
  · by_cases hserv : s.serving_node.isSome
    · left
      rw [CLMAB.acqStep, hj]
      simp [hserv]
    · have hserv2 : s.serving_node = none := by
        cases hs2 : s.serving_node
        · rfl
        · rw [hs2] at hserv; simp at hserv
      by_cases hbk : CLMAB.is_backoff s t
      · left
        rw [CLMAB.acqStep, hj]
        simp [hserv, hbk]
      · rcases hc : o.candidate j with _ | v
        · left
          rw [CLMAB.acqStep, hj]
          simp [hserv, hbk, hc]
        · right
          refine ⟨s, v, rfl, hserv2, by simpa using hbk, ?_⟩
          rw [CLMAB.acqStep, hj]
          simp only [hserv, Bool.false_eq_true, if_false, hbk, hc,
                     Option.isSome_none]
          by_cases hdraw : o.draw j < st.exploration_rate
          · rw [if_pos (by simp [hdraw])]
            left; rfl
          · rw [if_neg hdraw]
            by_cases hP : MACOL.get_reward st.q j (CLMAB.get_current_context l s) = 0 ∨
                MACOL.get_reward st.q j (CLMAB.get_current_context l s)
                  > MACOL.get_threshold st.q j
            · rw [if_pos (by simp [hP])]
              left; rfl
            · rw [if_neg (by simp [hP])]
              right; rfl

theorem CLMAB.sector_acqStep_snb (st : CLMAB.AlgoState) (o : CLMAB.Oracle) (t : ℚ)
    (l : List CLMAB.MySector) (j : ℕ) (hs : CLMAB.ServeNotBackoff l t) :
    CLMAB.ServeNotBackoff (CLMAB.acqStep st o t l j) t := by
  rcases CLMAB.sector_acqStep_cases st o t l j with heq | ⟨s, v, hj, hserv, hbk, hca⟩
  · rw [heq]; exact hs
  · rcases hca with heq | heq
    · rw [heq]
      intro b2 hm2 hsv2
      rcases List.mem_or_eq_of_mem_set hm2 with hmem | he
      · exact hs b2 hmem hsv2
      · subst he
        simpa [CLMAB.is_backoff, CLMAB.associate_vehicle] using hbk
    · rw [heq]
      intro b2 hm2 hsv2
      rcases List.mem_or_eq_of_mem_set hm2 with hmem | he
      · exact hs b2 hmem hsv2
      · subst he
        rw [show (CLMAB.backoff s t (MACOL.get_threshold st.q j)).serving_node
              = s.serving_node from rfl, hserv] at hsv2
        simp at hsv2

theorem CLMAB.sector_acqFold_snb (st : CLMAB.AlgoState) (o : CLMAB.Oracle) (t : ℚ) :
    ∀ (idxs : List ℕ) (l : List CLMAB.MySector), CLMAB.ServeNotBackoff l t →
      CLMAB.ServeNotBackoff (List.foldl (CLMAB.acqStep st o t) l idxs) t := by
  intro idxs
  induction idxs with
  | nil => intro l h; exact h
  | cons j idxs ih =>
      intro l h
      exact ih (CLMAB.acqStep st o t l j) (CLMAB.sector_acqStep_snb st o t l j h)

theorem CLMAB.sector_accrualPass_snb (dt : ℚ) (f : ℕ → Bool) (t : ℚ) :
    ∀ (l : List CLMAB.MySector) (j : ℕ), CLMAB.ServeNotBackoff l t →
      CLMAB.ServeNotBackoff (CLMAB.accrualPass dt f j l) t := by
  intro l
  induction l with
  | nil => intro j h; exact h
  | cons s rest ih =>
      intro j h
      have hrest : CLMAB.ServeNotBackoff rest t :=
        fun b hm hsv => h b (List.mem_cons_of_mem _ hm) hsv
      have hhead := h s (List.mem_cons_self _ _)
      intro b2 hm2 hsv2
      rw [CLMAB.accrualPass] at hm2
      rcases List.mem_cons.mp hm2 with he | hr
      · subst he
        by_cases hsv : s.serving_node.isSome
        · have : CLMAB.is_backoff (CLMAB.accrue dt (f j) s) t = CLMAB.is_backoff s t := by
            rw [CLMAB.accrue]
            simp [hsv, CLMAB.is_backoff]
          rw [this]
          exact hhead hsv
        · rw [CLMAB.accrue, if_neg (by simpa using hsv)] at hsv2 ⊢
          exact hhead hsv2
      · exact ih (j + 1) hrest b2 hr hsv2

theorem CLMAB.sector_epoch_snb (eps : ℚ) (o : CLMAB.Oracle) (dt t2 : ℚ) (s : CLMAB.State)
    (hs : CLMAB.ServeNotBackoff s.sectors t2) :
    CLMAB.ServeNotBackoff (CLMAB.epoch eps o dt t2 s).sectors t2 := by
  exact CLMAB.sector_acqFold_snb _ o t2 _ _
    (CLMAB.sector_dropPass_snb o.lost t2 _ 0
      (CLMAB.sector_accrualPass_snb dt o.interference t2 s.sectors 0 hs))

theorem CLMAB.sector_reachable_snb : ∀ (eps T : ℚ) (s : CLMAB.State) (t : ℚ),
    CLMAB.Reachable eps T s t → CLMAB.ServeNotBackoff s.sectors t := by
  intro eps T s t h
  induction h with
  | init nbrs =>
      intro sec hm hsv
      rcases List.mem_map.mp hm with ⟨nb, _, he⟩
      rw [← he] at hsv
      simp [CLMAB.mkSector] at hsv
  | step s t t2 o hreach hle ih =>
      exact CLMAB.sector_epoch_snb eps o (t2 - t) t2 s (CLMAB.sector_snb_mono _ t t2 hle ih)

/-- C9: in both implementations every reachable state satisfies mutual
exclusion: no agent simultaneously holds a client and a backoff timer
that is active at the epoch's current time (the time at which a new
association could next be made), and the single serving slot never holds
two clients at once. -/
theorem macol_C9 :
    (∀ (s : Toy.State) (t : ℚ), Toy.Reachable s t →
      Toy.ServeNotBackoff s.stations t ∧
      (∀ bs ∈ s.stations, ∀ v w : ℕ, bs.serving_vehicle = some v →
          bs.serving_vehicle = some w → v = w)) ∧
    (∀ (eps T : ℚ) (s : CLMAB.State) (t : ℚ), CLMAB.Reachable eps T s t →
      CLMAB.ServeNotBackoff s.sectors t ∧
      (∀ sec ∈ s.sectors, ∀ v w : ℕ, sec.serving_node = some v →
          sec.serving_node = some w → v = w)) := by
  constructor
  · intro s t h
    refine ⟨Toy.reachable_snb s t h, ?_⟩
    intro bs _ v w h1 h2
    rw [h1] at h2
    exact Option.some.inj h2
  · intro eps T s t h
    refine ⟨CLMAB.sector_reachable_snb eps T s t h, ?_⟩
    intro sec _ v w h1 h2
    rw [h1] at h2
    exact Option.some.inj h2

/-- Witness for C9 at concrete reachable states: the initial toy state
with two stations at time 0 and the initial CLMAB state with two
mutually neighbouring sectors at time 0. -/
theorem macol_C9_witness :
    (Toy.ServeNotBackoff (Toy.initState 2).stations 0 ∧
      (∀ bs ∈ (Toy.initState 2).stations, ∀ v w : ℕ, bs.serving_vehicle = some v →
          bs.serving_vehicle = some w → v = w)) ∧
    (CLMAB.ServeNotBackoff (CLMAB.initState 120 [[1], [0]]).sectors 0 ∧
      (∀ sec ∈ (CLMAB.initState 120 [[1], [0]]).sectors, ∀ v w : ℕ,
          sec.serving_node = some v → sec.serving_node = some w → v = w)) :=
  ⟨macol_C9.1 (Toy.initState 2) 0 (Toy.Reachable.init 2),
   macol_C9.2 (1/20) 120 (CLMAB.initState 120 [[1], [0]]) 0
     (@CLMAB.Reachable.init (1/20) 120 [[1], [0]])⟩

theorem Toy.dropPass_pointwise (lost : ℕ → Bool) :
    ∀ (l : List Toy.BaseStation) (j k : ℕ),
      ((Toy.dropPass lost j l).1)[k]?
        = (l[k]?).map (fun b =>
            if b.serving_vehicle.isSome ∧ lost (j + k) then Toy.lost_vehicle b else b) := by
  intro l
  induction l with
  | nil => intro j k; simp [Toy.dropPass]
  | cons b rest ih =>
      intro j k
      rw [Toy.dropPass]
      by_cases h1 : b.serving_vehicle.isSome
      · by_cases h2 : lost j
        · simp only [h1, h2, if_true, and_true]
          match k with
          | 0 => simp [h1, h2]
          | k + 1 =>
              simp only [List.getElem?_cons_succ, ih (j + 1) k]
              rw [show j + 1 + k = j + (k + 1) from by omega]
        · simp only [h1, h2, if_true, Bool.false_eq_true, if_false]
          match k with
          | 0 => simp [h1, h2]
          | k + 1 =>
              simp only [List.getElem?_cons_succ, ih (j + 1) k]
              rw [show j + 1 + k = j + (k + 1) from by omega]
      · simp only [h1, Bool.false_eq_true, if_false]
        match k with
        | 0 => simp [h1]
        | k + 1 =>
            simp only [List.getElem?_cons_succ, ih (j + 1) k]
            rw [show j + 1 + k = j + (k + 1) from by omega]

theorem Toy.dropPass_lost_spec (lost : ℕ → Bool) :
    ∀ (l : List Toy.BaseStation) (j k : ℕ), k ∈ (Toy.dropPass lost j l).2 →
      j ≤ k ∧ ∃ b, l[k - j]? = some b ∧ b.serving_vehicle.isSome ∧ lost k = true := by
  intro l
  induction l with
  | nil => intro j k hk; simp [Toy.dropPass] at hk
  | cons b rest ih =>
      intro j k hk
      rw [Toy.dropPass] at hk
      by_cases h1 : b.serving_vehicle.isSome
      · by_cases h2 : lost j
        · simp only [h1, h2, if_true, and_true] at hk
          rcases List.mem_cons.mp hk with he | hr
          · subst he
            exact ⟨le_refl _, b, by simp, h1, h2⟩
          · obtain ⟨hle, b2, hb2, hsv, hl⟩ := ih (j + 1) k hr
            refine ⟨by omega, b2, ?_, hsv, hl⟩
            rw [show k - j = (k - (j + 1)) + 1 from by omega]
            simpa using hb2
        · simp only [h1, h2, if_true, Bool.false_eq_true, if_false] at hk
          obtain ⟨hle, b2, hb2, hsv, hl⟩ := ih (j + 1) k hk
          refine ⟨by omega, b2, ?_, hsv, hl⟩
          rw [show k - j = (k - (j + 1)) + 1 from by omega]
          simpa using hb2
      · simp only [h1, Bool.false_eq_true, if_false] at hk
        obtain ⟨hle, b2, hb2, hsv, hl⟩ := ih (j + 1) k hk
        refine ⟨by omega, b2, ?_, hsv, hl⟩
        rw [show k - j = (k - (j + 1)) + 1 from by omega]
        simpa using hb2

theorem Toy.dropPass_lost_count (lost : ℕ → Bool) (l : List Toy.BaseStation) (k : ℕ)
    (hk : k ∈ (Toy.dropPass lost 0 l).2) :
    ∃ b2, ((Toy.dropPass lost 0 l).1)[k]? = some b2 ∧ 1 ≤ b2.total_serving_count := by
  obtain ⟨-, b, hb, hsv, hl⟩ := Toy.dropPass_lost_spec lost l 0 k hk
  rw [Nat.sub_zero] at hb
  refine ⟨Toy.lost_vehicle b, ?_, ?_⟩
  · rw [Toy.dropPass_pointwise lost l 0 k, hb]
    simp [hsv, hl]
  · simp only [Toy.lost_vehicle]
    omega

theorem Toy.dropPass_count_mono (lost : ℕ → Bool) (l : List Toy.BaseStation) (k : ℕ)
    (b2 : Toy.BaseStation) (hb2 : ((Toy.dropPass lost 0 l).1)[k]? = some b2) :
    ∃ b, l[k]? = some b ∧ b.total_serving_count ≤ b2.total_serving_count := by
  rw [Toy.dropPass_pointwise lost l 0 k] at hb2
  rcases hb : l[k]? with _ | b
  · rw [hb] at hb2; simp at hb2
  · rw [hb] at hb2
    simp only [Option.map_some'] at hb2
    refine ⟨b, rfl, ?_⟩
    by_cases hc : b.serving_vehicle.isSome ∧ lost (0 + k)
    · rw [if_pos hc] at hb2
      rw [← Option.some.inj hb2]
      simp only [Toy.lost_vehicle]
      omega
    · rw [if_neg hc] at hb2
      rw [← Option.some.inj hb2]

theorem MACOL.update_reward_q_value_ne (q : MACOL.QStore) (a : ℕ) (c : String) (r : ℚ)
    (j : ℕ) (h : j ≠ a) : (MACOL.update_reward q a c r).q_value j = q.q_value j := by
  simp [MACOL.update_reward, h]

theorem Toy.QCountInv_transport (q : MACOL.QStore) (l l2 : List Toy.BaseStation)
    (hinv : Toy.QCountInv q l)
    (h : ∀ (k : ℕ) (b2 : Toy.BaseStation), l2[k]? = some b2 → ∃ b, l[k]? = some b ∧
          b.total_serving_count ≤ b2.total_serving_count) :
    Toy.QCountInv q l2 := by
  intro j bs hj hq
  obtain ⟨b, hb, hle⟩ := h j bs hj
  exact le_trans (hinv j b hb hq) hle

theorem Toy.rewardPass_inv (lostIdx : List ℕ) :
    ∀ (q : MACOL.QStore) (stations : List Toy.BaseStation),
      Toy.QCountInv q stations →
      (∀ k ∈ lostIdx, ∃ b, stations[k]? = some b ∧ 1 ≤ b.total_serving_count) →
      Toy.QCountInv (Toy.rewardPass stations lostIdx q) stations := by
  induction lostIdx with
  | nil => intro q stations hinv _; exact hinv
  | cons k ks ih =>
      intro q stations hinv hlost
      have hstep : Toy.rewardPass stations (k :: ks) q
          = Toy.rewardPass stations ks
              (match stations[k]? with
               | some bs => MACOL.update_reward q k (bs.MAB_context.getD "") bs.serving_inter_free
               | none => q) := rfl
      rw [hstep]
      refine ih _ stations ?_ (fun k2 hk2 => hlost k2 (List.mem_cons_of_mem _ hk2))
      rcases hk : stations[k]? with _ | bs
      · exact hinv
      · intro j b hj hq
        by_cases hjk : j = k
        · subst hjk
          obtain ⟨b2, hb2, hc2⟩ := hlost j (List.mem_cons_self _ _)
          rw [hj] at hb2
          rw [Option.some.inj hb2]
          exact hc2
        · rw [MACOL.update_reward_q_value_ne q k _ _ j hjk] at hq
          exact hinv j b hj hq

theorem Toy.acqStep_count (sol : Toy.Solution) (o : Toy.Oracle) (t : ℚ)
    (l : List Toy.BaseStation) (j k : ℕ) (b2 : Toy.BaseStation)
    (hb2 : (Toy.acqStep sol o t l j)[k]? = some b2) :
    ∃ b, l[k]? = some b ∧ b.total_serving_count = b2.total_serving_count := by
  rcases Toy.acqStep_cases sol o t l j with heq | ⟨bs, v, hj, hserv, hbk, hca⟩
  · rw [heq] at hb2
    exact ⟨b2, hb2, rfl⟩
  · have hjlen : j < l.length := by
      rcases List.getElem?_eq_some.mp hj with ⟨h, _⟩
      exact h
    rcases hca with heq | heq
    all_goals rw [heq] at hb2
    all_goals by_cases hkj : k = j
    · subst hkj
      rw [List.getElem?_set_eq_of_lt _ hjlen] at hb2
      refine ⟨bs, hj, ?_⟩
      rw [← Option.some.inj hb2]
      rfl
    · rw [List.getElem?_set_ne (fun h => hkj h.symm)] at hb2
      exact ⟨b2, hb2, rfl⟩
    · subst hkj
      rw [List.getElem?_set_eq_of_lt _ hjlen] at hb2
      refine ⟨bs, hj, ?_⟩
      rw [← Option.some.inj hb2]
      rfl
    · rw [List.getElem?_set_ne (fun h => hkj h.symm)] at hb2
      exact ⟨b2, hb2, rfl⟩

theorem Toy.acqFold_count (sol : Toy.Solution) (o : Toy.Oracle) (t : ℚ) :
    ∀ (idxs : List ℕ) (l : List Toy.BaseStation) (k : ℕ) (b2 : Toy.BaseStation),
      (List.foldl (Toy.acqStep sol o t) l idxs)[k]? = some b2 →
      ∃ b, l[k]? = some b ∧ b.total_serving_count ≤ b2.total_serving_count := by
  intro idxs
  induction idxs with
  | nil => intro l k b2 h; exact ⟨b2, h, le_refl _⟩
  | cons j idxs ih =>
      intro l k b2 h
      obtain ⟨b1, hb1, hle1⟩ := ih (Toy.acqStep sol o t l j) k b2 h
      obtain ⟨b, hb, he⟩ := Toy.acqStep_count sol o t l j k b1 hb1
      exact ⟨b, hb, by omega⟩

theorem Toy.accrualPass_pointwise (f : ℕ → Bool) :
    ∀ (l : List Toy.BaseStation) (j k : ℕ),
      (Toy.accrualPass f j l)[k]? = (l[k]?).map (Toy.accrue (f (j + k))) := by
  intro l
  induction l with
  | nil => intro j k; simp [Toy.accrualPass]
  | cons b rest ih =>
      intro j k
      rw [Toy.accrualPass]
      match k with
      | 0 => simp
      | k + 1 =>
          simp only [List.getElem?_cons_succ, ih (j + 1) k]
          rw [show j + 1 + k = j + (k + 1) from by omega]

theorem Toy.accrue_count (f : Bool) (b : Toy.BaseStation) :
    (Toy.accrue f b).total_serving_count = b.total_serving_count := by
  rw [Toy.accrue]
  by_cases h : b.serving_vehicle.isSome
  · rw [if_pos h]
  · rw [if_neg h]

theorem Toy.accrualPass_count (f : ℕ → Bool) (l : List Toy.BaseStation) (k : ℕ)
    (b2 : Toy.BaseStation) (hb2 : (Toy.accrualPass f 0 l)[k]? = some b2) :
    ∃ b, l[k]? = some b ∧ b.total_serving_count ≤ b2.total_serving_count := by
  rw [Toy.accrualPass_pointwise f l 0 k] at hb2
  rcases hb : l[k]? with _ | b
  · rw [hb] at hb2; simp at hb2
  · rw [hb] at hb2
    simp only [Option.map_some'] at hb2
    refine ⟨b, rfl, ?_⟩
    rw [← Option.some.inj hb2, Toy.accrue_count]

theorem Toy.explorationUpdate_q (sol : Toy.Solution) (t : ℚ) :
    (Toy.explorationUpdate sol t).q = sol.q := by
  rw [Toy.explorationUpdate]
  by_cases h1 : sol.is_full_exploration
  · rw [if_pos h1]
    by_cases h2 : t > sol.exploration_time
    · rw [if_pos h2]
    · rw [if_neg h2]
  · rw [if_neg h1]

theorem MACOL.get_reward_table_ne (q : MACOL.QStore) (j : ℕ) (c : String)
    (h : MACOL.get_reward q j c ≠ 0) : q.q_value j ≠ [] := by
  intro he
  rw [MACOL.get_reward, he] at h
  exact h rfl

theorem Toy.midState_inv (s : Toy.State) (t2 : ℚ) (o : Toy.Oracle)
    (hinv : Toy.QCountInv s.sol.q s.stations) :
    Toy.QCountInv
      (Toy.rewardPass (Toy.dropPass o.lost 0 s.stations).1
         (Toy.dropPass o.lost 0 s.stations).2 (Toy.explorationUpdate s.sol t2).q)
      (Toy.dropPass o.lost 0 s.stations).1 := by
  rw [Toy.explorationUpdate_q]
  refine Toy.rewardPass_inv _ _ _ ?_ ?_
  · exact Toy.QCountInv_transport s.sol.q s.stations _ hinv
      (fun k b2 hb2 => Toy.dropPass_count_mono o.lost s.stations k b2 hb2)
  · intro k hk
    exact Toy.dropPass_lost_count o.lost s.stations k hk

theorem Toy.epoch_qinv (o : Toy.Oracle) (t2 : ℚ) (s : Toy.State)
    (hinv : Toy.QCountInv s.sol.q s.stations) :
    Toy.QCountInv (Toy.epoch o t2 s).sol.q (Toy.epoch o t2 s).stations := by
  have hmid := Toy.midState_inv s t2 o hinv
  have hfold := Toy.QCountInv_transport
      (Toy.rewardPass (Toy.dropPass o.lost 0 s.stations).1
         (Toy.dropPass o.lost 0 s.stations).2 (Toy.explorationUpdate s.sol t2).q)
      (Toy.dropPass o.lost 0 s.stations).1
      (List.foldl
        (Toy.acqStep
          { Toy.explorationUpdate s.sol t2 with
              q := Toy.rewardPass (Toy.dropPass o.lost 0 s.stations).1
                     (Toy.dropPass o.lost 0 s.stations).2
                     (Toy.explorationUpdate s.sol t2).q }
          o t2)
        (Toy.dropPass o.lost 0 s.stations).1
        (List.range (Toy.dropPass o.lost 0 s.stations).1.length))
      hmid
      (fun k b2 hb2 => Toy.acqFold_count _ o t2 _ _ k b2 hb2)
  exact Toy.QCountInv_transport _ _ _ hfold
      (fun k b2 hb2 => Toy.accrualPass_count o.interFree _ k b2 hb2)

theorem Toy.reachable_qinv : ∀ (s : Toy.State) (t : ℚ), Toy.Reachable s t →
    Toy.QCountInv s.sol.q s.stations := by
  intro s t h
  induction h with
  | init n =>
      intro j bs hj hq
      exact absurd rfl hq
  | step s t t2 o hreach hle ih =>
      exact Toy.epoch_qinv o t2 s ih

/-- C10: in the toy implementation, the q table of an agent is only ever
written when that agent has just completed a connection, so in every
reachable state (and at every intermediate point of the association
pass) a nonempty q table implies total_serving_count >= 1; since
reaching the backoff branch requires get_reward != 0, hence a nonempty
table, the unguarded division in get_average_serving_duration has a
nonzero denominator whenever it is invoked from that branch, and the
timer is armed with total_serving_duration / total_serving_count. -/
theorem macol_C10 :
    (∀ (s : Toy.State) (t : ℚ), Toy.Reachable s t → Toy.QCountInv s.sol.q s.stations) ∧
    (∀ (s : Toy.State) (t t2 : ℚ) (o : Toy.Oracle) (idxs : List ℕ), Toy.Reachable s t →
        Toy.QCountInv
          (Toy.rewardPass (Toy.dropPass o.lost 0 s.stations).1
             (Toy.dropPass o.lost 0 s.stations).2 (Toy.explorationUpdate s.sol t2).q)
          (List.foldl
            (Toy.acqStep
              { Toy.explorationUpdate s.sol t2 with
                  q := Toy.rewardPass (Toy.dropPass o.lost 0 s.stations).1
                         (Toy.dropPass o.lost 0 s.stations).2
                         (Toy.explorationUpdate s.sol t2).q }
              o t2)
            (Toy.dropPass o.lost 0 s.stations).1 idxs)) ∧
    (∀ (sol : Toy.Solution) (o : Toy.Oracle) (t : ℚ) (l : List Toy.BaseStation)
        (j : ℕ) (bs : Toy.BaseStation) (v : ℕ),
        Toy.QCountInv sol.q l →
        l[j]? = some bs → bs.serving_vehicle = none → Toy.is_backoff bs t = false →
        o.candidate j = some v → ¬ (o.draw j < sol.exploration_rate) →
        MACOL.get_reward sol.q j (Toy.get_current_context j l) ≠ 0 →
        ¬ (MACOL.get_reward sol.q j (Toy.get_current_context j l)
             > MACOL.get_threshold sol.q j) →
        1 ≤ bs.total_serving_count ∧ ((bs.total_serving_count : ℕ) : ℚ) ≠ 0 ∧
        (Toy.acqStep sol o t l j)[j]?
          = some (Toy.backoff bs t
              (bs.total_serving_duration / ((bs.total_serving_count : ℕ) : ℚ)))) := by
  refine ⟨Toy.reachable_qinv, ?_, ?_⟩
  · intro s t t2 o idxs hreach
    exact Toy.QCountInv_transport _ _ _
      (Toy.midState_inv s t2 o (Toy.reachable_qinv s t hreach))
      (fun k b2 hb2 => Toy.acqFold_count _ o t2 idxs _ k b2 hb2)
  · intro sol o t l j bs v hinv hj hserv hbk hcand hdraw hr hgt
    have hlt : j < l.length := by
      rcases List.getElem?_eq_some.mp hj with ⟨h, _⟩
      exact h
    have hcount : 1 ≤ bs.total_serving_count :=
      hinv j bs hj (MACOL.get_reward_table_ne sol.q j _ hr)
    refine ⟨hcount, Nat.cast_ne_zero.mpr (Nat.one_le_iff_ne_zero.mp hcount), ?_⟩
    rw [Toy.acqStep_exploit sol o t l j bs v hj hserv hbk hcand hdraw,
        if_neg (not_or.mpr ⟨hr, hgt⟩)]
    exact List.getElem?_set_eq_of_lt _ hlt

/-- Witness for C10: the invariant at the initial one-station state, at
the mid-association state of an epoch on it, and the backoff branch at
station 0 of exToyPair (count 2, armed duration 14/2). -/
theorem macol_C10_witness :
    Toy.QCountInv (Toy.initState 1).sol.q (Toy.initState 1).stations ∧
    Toy.QCountInv
      (Toy.rewardPass (Toy.dropPass exOracleLost.lost 0 (Toy.initState 1).stations).1
         (Toy.dropPass exOracleLost.lost 0 (Toy.initState 1).stations).2
         (Toy.explorationUpdate (Toy.initState 1).sol 1).q)
      (List.foldl
        (Toy.acqStep
          { Toy.explorationUpdate (Toy.initState 1).sol 1 with
              q := Toy.rewardPass (Toy.dropPass exOracleLost.lost 0 (Toy.initState 1).stations).1
                     (Toy.dropPass exOracleLost.lost 0 (Toy.initState 1).stations).2
                     (Toy.explorationUpdate (Toy.initState 1).sol 1).q }
          exOracleLost 1)
        (Toy.dropPass exOracleLost.lost 0 (Toy.initState 1).stations).1 [0]) ∧
    (1 ≤ exToyIdle.total_serving_count ∧ ((exToyIdle.total_serving_count : ℕ) : ℚ) ≠ 0 ∧
     (Toy.acqStep exToySolution exOracleOffer 9000 exToyPair 0)[0]?
       = some (Toy.backoff exToyIdle 9000
           (exToyIdle.total_serving_duration / ((exToyIdle.total_serving_count : ℕ) : ℚ)))) :=
  ⟨macol_C10.1 (Toy.initState 1) 0 (Toy.Reachable.init 1),
   macol_C10.2.1 (Toy.initState 1) 0 1 exOracleLost [0] (Toy.Reachable.init 1),
   macol_C10.2.2 exToySolution exOracleOffer 9000 exToyPair 0 exToyIdle 5
     (by
       intro j bs hj hq
       rcases j with _ | j
       · simp only [exToyPair] at hj
         rw [show [exToyIdle, exToyServing][0]? = some exToyIdle from rfl] at hj
         rw [← Option.some.inj hj]
         norm_num [exToyIdle]
       · rcases j with _ | j
         · simp only [exToyPair] at hj
           rw [show [exToyIdle, exToyServing][1]? = some exToyServing from rfl] at hj
           rw [← Option.some.inj hj]
           norm_num [exToyServing]
         · simp [exToyPair] at hj)
     rfl rfl (by norm_num [Toy.is_backoff, exToyIdle]) rfl
     (by norm_num [exOracleOffer, exToySolution])
     (by norm_num [exToySolution, exToyPair, exToyIdle, exToyServing, exQ,
                   Toy.get_current_context, Toy.ctxBits, Toy.servingChar,
                   MACOL.get_reward, MACOL.qlookup])
     (by norm_num [exToySolution, exToyPair, exToyIdle, exToyServing, exQ,
                   Toy.get_current_context, Toy.ctxBits, Toy.servingChar,
                   MACOL.get_reward, MACOL.get_threshold, MACOL.qlookup])⟩
